import Mathlib

/-!
# Verification development for the algoclash realtime match coordinator

Shallow embedding of `src/scripts/server.ts`: the per-room match state
machine (`Room`), the room registry (`RoomsMap`), the WebSocket join
handler, and the judging harness (`evaluateSolution` / `deepEqual`),
together with the seeded problem repository (`seedProblems`,
`Repo.getRandomProblem`).

Modelling conventions:
- JS timestamps (`Date.now()` milliseconds) are `Nat`, passed explicitly
  to each operation that reads the clock.
- The nondeterministic primitives the judging vm context exposes to
  submissions — `Math.random()` from the host `Math` object handed into
  the context, and `Date.now()` from the context realm\x27s own
  built-ins — are modelled as reads from one explicit ambient stream
  `rand : Nat → ℚ` consumed at an index that is part of the evaluator
  state (JS doubles are rationals; only exact comparisons appear in
  this development, so no floating-point rounding is involved).
- The nondeterministic choice in `Repo.getRandomProblem`
  (`Math.floor(Math.random() * pool.length)`) is modelled as an explicit
  index `choice` reduced modulo the pool length.
- WebSocket handles are identified with player ids; an outbound send is
  either a broadcast to the whole room or a direct send to one session.
- Submitted untrusted code is modelled as a program of a small
  sublanguage of what the vm context of `evaluateSolution` exposes
  (literals, argument references, global reads/writes, sequencing,
  numeric addition and comparison, conditionals on booleans, throwing,
  `Math.random()` and `Date.now()`); on the constructs included the JS
  semantics is reproduced exactly, and function declarations are kept
  in a separate table that test invocations look up by name. The
  context is a full ECMAScript realm, so the fragment is strict: realm
  built-ins such as `eval` and the `Function` constructor (reachable
  also through the passed-in host objects, e.g.
  `Math.constructor.constructor`) are outside it, and every statement
  about all submissions is scoped to this fragment.
-/

namespace AlgoClash

inductive Difficulty where
  | Easy
  | Medium
  | Hard
deriving DecidableEq, Repr

inductive Topic where
  | Arrays
  | Strings
  | Trees
  | Graphs
  | DP
deriving DecidableEq, Repr

inductive TeamKey where
  | A
  | B
deriving DecidableEq, Repr

/-- JSON-style values: the data that flows through test vectors and the
judging comparison (`deepEqual` in the source). -/
inductive Value where
  | null
  | bool (b : Bool)
  | num (q : ℚ)
  | str (s : String)
  | arr (elems : List Value)
  | obj (fields : List (String × Value))

/-- JSON string-character escaping as performed by `JSON.stringify`
(quote and backslash; no control characters occur in this development). -/
def escapeChar (c : Char) : String :=
  if c = '"' then "\\\"" else if c = '\\' then "\\\\" else String.singleton c

def escapeString (s : String) : String :=
  String.join (s.toList.map escapeChar)

/-- Decimal rendering of a JS number. `JSON.stringify` prints an
integer-valued double with no fractional part, which this reproduces
exactly; for non-integer rationals the rendering is an injective
placeholder (JS shortest-round-trip double formatting is not
reproduced — every value actually compared in this development is
integer-valued, boolean, string, null or composed of those). -/
def numToString (q : ℚ) : String :=
  if q.den = 1 then toString q.num else toString q.num ++ "/" ++ toString q.den

mutual

/-- Model of `JSON.stringify` on JSON values: the canonical textual
encoding used by the source's `deepEqual`. -/
def Value.stringify : Value → String
  | .null => "null"
  | .bool true => "true"
  | .bool false => "false"
  | .num q => numToString q
  | .str s => "\"" ++ escapeString s ++ "\""
  | .arr es => "[" ++ stringifyElems es ++ "]"
  | .obj fs => "\x7b" ++ stringifyFields fs ++ "\x7d"

def stringifyElems : List Value → String
  | [] => ""
  | [v] => Value.stringify v
  | v :: v2 :: rest => Value.stringify v ++ "," ++ stringifyElems (v2 :: rest)

def stringifyFields : List (String × Value) → String
  | [] => ""
  | [(k, v)] => "\"" ++ escapeString k ++ "\":" ++ Value.stringify v
  | (k, v) :: f2 :: rest =>
      "\"" ++ escapeString k ++ "\":" ++ Value.stringify v ++ "," ++ stringifyFields (f2 :: rest)

end

/-- `function deepEqual(a, b) { return JSON.stringify(a) === JSON.stringify(b) }` -/
def deepEqual (a b : Value) : Bool :=
  Value.stringify a == Value.stringify b

/-- Association-list lookup (JS `Map.get` / global-variable lookup). -/
def lookupAssoc {α : Type} (k : String) : List (String × α) → Option α
  | [] => none
  | (k2, v) :: rest => if k2 = k then some v else lookupAssoc k rest

/-- Association-list update (JS `Map.set` / global assignment): replaces
in place if the key is present, appends otherwise. -/
def setAssoc {α : Type} (k : String) (v : α) : List (String × α) → List (String × α)
  | [] => [(k, v)]
  | (k2, v2) :: rest => if k2 = k then (k, v) :: rest else (k2, v2) :: setAssoc k v rest

/-- Submitted-code sublanguage: expressions evaluable inside the vm
context built by `evaluateSolution` (which exposes the host `Math`,
`JSON`, `Number`, `String`, `Array`, `Object`, `parseInt`,
`parseFloat`, `BigInt`, `Infinity` and a silenced `console`, on top of
the context realm\x27s own built-ins such as `Date`). The two impure
primitives of the fragment are `random` (`Math.random()`) and
`dateNow` (`Date.now()`); the realm\x27s reflective escapes (`eval`,
the `Function` constructor, also reachable through the host objects)
are NOT part of the fragment, so universally quantified statements
over `Expr` cover exactly this fragment of JS, not all of it. -/
inductive Expr where
  | lit (v : Value)
  | arg (i : Nat)
  | getG (x : String)
  | setG (x : String) (e : Expr)
  | seq (a b : Expr)
  | add (a b : Expr)
  | lt (a b : Expr)
  | cond (c t e : Expr)
  | random
  | dateNow
  | throwE (msg : String)

/-- Mutable state of one vm context: the global bindings created by the
submitted code, plus the read position in the ambient stream backing
the impure primitives (`Math.random()`, `Date.now()`). -/
structure EvalState where
  globals : List (String × Value)
  ridx : Nat

/-- Evaluation of one expression in the vm context. `rand` is the
ambient stream backing the impure primitives (each call of
`Math.random()` or `Date.now()` reads the next value); `args` are the
current invocation\x27s arguments. -/
def evalExpr (rand : Nat → ℚ) (args : List Value) : Expr → EvalState → Except String (Value × EvalState)
  | .lit v, st => .ok (v, st)
  | .arg i, st => .ok (args.getD i Value.null, st)
  | .getG x, st =>
      match lookupAssoc x st.globals with
      | some v => .ok (v, st)
      | none => .error ("ReferenceError: " ++ x ++ " is not defined")
  | .setG x e, st =>
      match evalExpr rand args e st with
      | .error m => .error m
      | .ok (v, st2) => .ok (v, ⟨setAssoc x v st2.globals, st2.ridx⟩)
  | .seq a b, st =>
      match evalExpr rand args a st with
      | .error m => .error m
      | .ok (_, st2) => evalExpr rand args b st2
  | .add a b, st =>
      match evalExpr rand args a st with
      | .error m => .error m
      | .ok (va, st2) =>
        match evalExpr rand args b st2 with
        | .error m => .error m
        | .ok (vb, st3) =>
          match va, vb with
          | .num x, .num y => .ok (.num (x + y), st3)
          | _, _ => .error "TypeError: operands are not numbers"
  | .lt a b, st =>
      match evalExpr rand args a st with
      | .error m => .error m
      | .ok (va, st2) =>
        match evalExpr rand args b st2 with
        | .error m => .error m
        | .ok (vb, st3) =>
          match va, vb with
          | .num x, .num y => .ok (.bool (decide (x < y)), st3)
          | _, _ => .error "TypeError: operands are not numbers"
  | .cond c t e, st =>
      match evalExpr rand args c st with
      | .error m => .error m
      | .ok (.bool true, st2) => evalExpr rand args t st2
      | .ok (.bool false, st2) => evalExpr rand args e st2
      | .ok _ => .error "TypeError: condition is not a boolean"
  | .random, st => .ok (.num (rand st.ridx), ⟨st.globals, st.ridx + 1⟩)
  | .dateNow, st => .ok (.num (rand st.ridx), ⟨st.globals, st.ridx + 1⟩)
  | .throwE m, _ => .error m

/-- Whether an expression (syntactically) invokes an impure primitive
of the fragment (`Math.random()` or `Date.now()`). -/
def Expr.usesImpure : Expr → Bool
  | .lit _ => false
  | .arg _ => false
  | .getG _ => false
  | .setG _ e => e.usesImpure
  | .seq a b => a.usesImpure || b.usesImpure
  | .add a b => a.usesImpure || b.usesImpure
  | .lt a b => a.usesImpure || b.usesImpure
  | .cond c t e => c.usesImpure || t.usesImpure || e.usesImpure
  | .random => true
  | .dateNow => true
  | .throwE _ => false

/-- A function declared by the submitted code; parameters are referenced
positionally via `Expr.arg`. -/
structure FuncDef where
  body : Expr

/-- A submitted program: top-level bindings executed once at load time
(in order), plus the table of declared functions. -/
structure Code where
  init : List (String × Expr)
  funcs : List (String × FuncDef)

def Code.usesImpure (c : Code) : Bool :=
  c.init.any (fun p => p.2.usesImpure) || c.funcs.any (fun p => p.2.body.usesImpure)

/-- Running the submitted code's top level once inside the fresh
context (the `vm.runInContext(wrapped, context)` load step). -/
def runInit (rand : Nat → ℚ) : List (String × Expr) → EvalState → Except String EvalState
  | [], st => .ok st
  | (x, e) :: rest, st =>
      match evalExpr rand [] e st with
      | .error m => .error m
      | .ok (v, st2) => runInit rand rest ⟨setAssoc x v st2.globals, st2.ridx⟩

structure TestVec where
  args : List Value
  expected : Value

structure Problem where
  id : String
  title : String
  description : String
  signature : String
  examples : String
  boilerplate : String
  difficulty : Difficulty
  topic : Topic
  functionName : String
  tests : List TestVec

/-- The per-test loop of `evaluateSolution`: invoke the target function
on each vector's arguments in the one shared context, abort with a
`Runtime error` on a thrown exception, return `false` on the first
result whose canonical encoding differs from the expected value,
`true` once every vector has passed. -/
def runTests (rand : Nat → ℚ) (body : Expr) : List TestVec → EvalState → Except String Bool
  | [], _ => .ok true
  | t :: rest, st =>
      match evalExpr rand t.args body st with
      | .error m => .error ("Runtime error on test: " ++ m)
      | .ok (out, st2) =>
          if deepEqual out t.expected then runTests rand body rest st2 else .ok false

/-- `evaluateSolution(code, problem)`: create one fresh isolated context,
load the submitted code in it (a failure there is a `Compile error`),
look up the problem's target function (failure: `Function ... not
found`), then run every test vector in that same context.
`.ok true` is Pass, `.ok false` is the wrong-answer outcome (surfaced
to the player as "Wrong answer"), `.error m` is a thrown harness
error with reason `m`. -/
def evaluateSolution (code : Code) (problem : Problem) (rand : Nat → ℚ) : Except String Bool :=
  match runInit rand code.init ⟨[], 0⟩ with
  | .error m => .error ("Compile error: " ++ m)
  | .ok st =>
      match lookupAssoc problem.functionName code.funcs with
      | none => .error ("Function " ++ problem.functionName ++ " not found")
      | some fd => runTests rand fd.body problem.tests st
/-- The in-memory problem pool seeded by the `Repo` constructor
(`seedProblems()` in the source), translated field by field. -/
def seedProblems : List Problem := [
  { id := "two-sum-easy",
    title := "Two Sum",
    description := "Given an array of integers nums and an integer target, return indices of the two numbers such that they add up to target.\nAssume exactly one solution, and you may not use the same element twice. Return the indices in any order.",
    signature := "function twoSum(nums: number[], target: number): number[]",
    examples := "Input: nums = [2,7,11,15], target = 9 => Output: [0,1]\nInput: nums = [3,2,4], target = 6 => Output: [1,2]",
    boilerplate := "function twoSum(nums, target) \x7b\n  const map = new Map();\n  for (let i = 0; i < nums.length; i++) \x7b\n    const need = target - nums[i];\n    if (map.has(need)) return [map.get(need), i];\n    map.set(nums[i], i);\n  \x7d\n  return [];\n\x7d\n",
    difficulty := .Easy, topic := .Arrays, functionName := "twoSum",
    tests := [⟨[.arr [.num 2, .num 7, .num 11, .num 15], .num 9], .arr [.num 0, .num 1]⟩,
      ⟨[.arr [.num 3, .num 2, .num 4], .num 6], .arr [.num 1, .num 2]⟩,
      ⟨[.arr [.num 3, .num 3], .num 6], .arr [.num 0, .num 1]⟩] },
  { id := "valid-anagram",
    title := "Valid Anagram",
    description := "Given two strings s and t, return true if t is an anagram of s, and false otherwise.",
    signature := "function isAnagram(s: string, t: string): boolean",
    examples := "Input: s = \"anagram\", t = \"nagaram\" => true\nInput: s = \"rat\", t = \"car\" => false",
    boilerplate := "function isAnagram(s, t) \x7b\n  if (s.length !== t.length) return false;\n  const cnt = new Array(26).fill(0);\n  for (let i = 0; i < s.length; i++) \x7b\n    cnt[s.charCodeAt(i) - 97]++;\n    cnt[t.charCodeAt(i) - 97]--;\n  \x7d\n  return cnt.every(x => x === 0);\n\x7d\n",
    difficulty := .Easy, topic := .Strings, functionName := "isAnagram",
    tests := [⟨[.str "anagram", .str "nagaram"], .bool true⟩,
      ⟨[.str "rat", .str "car"], .bool false⟩] },
  { id := "max-depth-tree",
    title := "Maximum Depth of Binary Tree",
    description := "Given the root of a binary tree, return its maximum depth. A binary tree node is represented as \x7b val, left, right \x7d.",
    signature := "function maxDepth(root: TreeNode | null): number",
    examples := "Input: root = \x7bval:3,left:\x7bval:9,left:null,right:null\x7d,right:\x7bval:20,left:\x7bval:15\x7d,right:\x7bval:7\x7d\x7d\x7d\nOutput: 3",
    boilerplate := "function maxDepth(root) \x7b\n  if (!root) return 0;\n  return 1 + Math.max(maxDepth(root.left), maxDepth(root.right));\n\x7d\n",
    difficulty := .Medium, topic := .Trees, functionName := "maxDepth",
    tests := [⟨[.obj [("val", .num 3), ("left", .obj [("val", .num 9), ("left", .null), ("right", .null)]), ("right", .obj [("val", .num 20), ("left", .obj [("val", .num 15)]), ("right", .obj [("val", .num 7)])])]], .num 3⟩,
      ⟨[.null], .num 0⟩] },
  { id := "num-islands",
    title := "Number of Islands",
    description := "Given a 2D grid of \x271\x27s (land) and \x270\x27s (water), return the number of islands. An island is surrounded by water and is formed by connecting adjacent lands horizontally or vertically.",
    signature := "function numIslands(grid: string[][]): number",
    examples := "Input: grid = [[\"1\",\"1\",\"0\"],[\"0\",\"1\",\"0\"],[\"1\",\"0\",\"1\"]] => Output: 3",
    boilerplate := "function numIslands(grid) \x7b\n  const m = grid.length, n = grid[0].length;\n  let count = 0;\n  const dirs = [[1,0],[-1,0],[0,1],[0,-1]];\n  function dfs(r,c)\x7b\n    if (r<0||c<0||r>=m||c>=n||grid[r][c]!==\"1\") return;\n    grid[r][c]=\"0\";\n    for (const [dr,dc] of dirs) dfs(r+dr,c+dc);\n  \x7d\n  for (let i=0;i<m;i++)\x7b\n    for (let j=0;j<n;j++)\x7b\n      if (grid[i][j]===\"1\")\x7b count++; dfs(i,j); \x7d\n    \x7d\n  \x7d\n  return count;\n\x7d\n",
    difficulty := .Medium, topic := .Graphs, functionName := "numIslands",
    tests := [⟨[.arr [.arr [.str "1", .str "1", .str "0"], .arr [.str "0", .str "1", .str "0"], .arr [.str "1", .str "0", .str "1"]]], .num 3⟩,
      ⟨[.arr [.arr [.str "0", .str "0"], .arr [.str "0", .str "0"]]], .num 0⟩] },
  { id := "edit-distance",
    title := "Edit Distance",
    description := "Given two strings word1 and word2, return the minimum number of operations required to convert word1 to word2. You have the following operations permitted on a word: insert a character, delete a character, replace a character.",
    signature := "function minDistance(word1: string, word2: string): number",
    examples := "Input: \"horse\", \"ros\" => 3",
    boilerplate := "function minDistance(a, b) \x7b\n  const m = a.length, n = b.length;\n  const dp = Array.from(\x7b length: m + 1 \x7d, () => new Array(n + 1).fill(0));\n  for (let i = 0; i <= m; i++) dp[i][0] = i;\n  for (let j = 0; j <= n; j++) dp[0][j] = j;\n  for (let i = 1; i <= m; i++) \x7b\n    for (let j = 1; j <= n; j++) \x7b\n      if (a[i - 1] === b[j - 1]) dp[i][j] = dp[i - 1][j - 1];\n      else dp[i][j] = 1 + Math.min(dp[i - 1][j], dp[i][j - 1], dp[i - 1][j - 1]);\n    \x7d\n  \x7d\n  return dp[m][n];\n\x7d\n",
    difficulty := .Hard, topic := .DP, functionName := "minDistance",
    tests := [⟨[.str "horse", .str "ros"], .num 3⟩,
      ⟨[.str "intention", .str "execution"], .num 5⟩] },
  { id := "course-schedule",
    title := "Course Schedule (Detect Cycle)",
    description := "Given the total number of courses and prerequisites as pairs, determine if you can finish all courses (i.e., graph has no cycle).",
    signature := "function canFinish(n: number, prereqs: number[][]): boolean",
    examples := "Input: n=2, [[1,0]] => true; n=2, [[1,0],[0,1]] => false",
    boilerplate := "function canFinish(n, prereqs) \x7b\n  const g = Array.from(\x7blength:n\x7d, () => []);\n  const indeg = new Array(n).fill(0);\n  for (const [a,b] of prereqs) \x7b g[b].push(a); indeg[a]++; \x7d\n  const q = [];\n  for (let i=0;i<n;i++) if (indeg[i]===0) q.push(i);\n  let seen = 0;\n  while (q.length) \x7b\n    const u = q.shift();\n    seen++;\n    for (const v of g[u]) \x7b\n      if (--indeg[v] === 0) q.push(v);\n    \x7d\n  \x7d\n  return seen === n;\n\x7d\n",
    difficulty := .Hard, topic := .Graphs, functionName := "canFinish",
    tests := [⟨[.num 2, .arr [.arr [.num 1, .num 0]]], .bool true⟩,
      ⟨[.num 2, .arr [.arr [.num 1, .num 0], .arr [.num 0, .num 1]]], .bool false⟩] }
]


/-- The repository layer (in-memory fallback). -/
structure Repo where
  problems : List Problem

/-- `const repo = new Repo()` seeds the problem pool. -/
def Repo.new : Repo := ⟨seedProblems⟩

/-- `Repo.getRandomProblem(difficulty, topic)`: filter the pool by
category; throw `"No problems in this category."` when it is empty,
otherwise return the pool entry selected by `Math.floor(Math.random() *
pool.length)`, modelled as the explicit index `choice % pool.length`. -/
def Repo.getRandomProblem (repo : Repo) (difficulty : Difficulty) (topic : Topic)
    (choice : Nat) : Except String Problem :=
  let pool := repo.problems.filter (fun p => p.difficulty == difficulty && p.topic == topic)
  if h : pool.length = 0 then .error "No problems in this category."
  else .ok (pool.get ⟨choice % pool.length, Nat.mod_lt _ (Nat.pos_of_ne_zero h)⟩)

/-- The pool `getRandomProblem` selects from for a category. -/
def poolFor (difficulty : Difficulty) (topic : Topic) : List Problem :=
  seedProblems.filter (fun p => p.difficulty == difficulty && p.topic == topic)

/-- A player of a room (the `ws` handle is left implicit: direct sends
are addressed by the player id owning that session). -/
structure Player where
  id : String
  name : String
  team : TeamKey
  ready : Bool
  attempts : Nat
  errors : Nat
deriving DecidableEq, Repr

/-- The public projection of a player carried by `room_state` messages. -/
structure PlayerView where
  id : String
  name : String
  team : TeamKey
  ready : Bool
  attempts : Nat
  errors : Nat
deriving DecidableEq, Repr

structure RoomStatePayload where
  roomId : String
  difficulty : Difficulty
  topic : Topic
  players : List PlayerView
  started : Bool
  winner : Option TeamKey
deriving DecidableEq, Repr

/-- Server-to-client messages (`ServerToClientMessage` in the source). -/
inductive SMsg where
  | roomState (state : RoomStatePayload) (selfId : Option String)
  | gameStart (problem : Problem) (endAt : Nat) (boilerplate : Option String)
  | chat (sender : String) (text : String) (team : Option TeamKey)
  | attemptResult (ok : Bool) (message : Option String)
  | gameOver (winner : Option TeamKey) (timeTaken : Nat)
  | timerSync (endAt : Nat)
  | error (message : String)

/-- One outbound send: a fan-out to every session of the room
(`Room.broadcast`) or a direct `safeSend` to one session. -/
inductive Out where
  | broadcast (m : SMsg)
  | direct (pid : String) (m : SMsg)

/-- Whether a send carries an error-kind message. -/
def Out.isErrorKind : Out → Bool
  | .broadcast (.error _) => true
  | .direct _ (.error _) => true
  | _ => false

/-- The per-room match state machine. `timer` records whether the 1 Hz
interval handle is live (`this.timer !== undefined`). -/
structure Room where
  id : String
  difficulty : Difficulty
  topic : Topic
  players : List Player
  started : Bool
  winner : Option TeamKey
  problem : Option Problem
  endAt : Option Nat
  timer : Bool

/-- The `Room` constructor. -/
def Room.new (id : String) (difficulty : Difficulty) (topic : Topic) : Room :=
  ⟨id, difficulty, topic, [], false, none, none, none, false⟩

/-- `this.players.get(id)`: the player map is kept as an insertion-order
association list keyed by `Player.id`. -/
def findPlayer : List Player → String → Option Player
  | [], _ => none
  | q :: rest, id => if q.id = id then some q else findPlayer rest id

/-- `this.players.set(p.id, p)`: replace in place when the key is
present, append otherwise. -/
def setPlayer (l : List Player) (p : Player) : List Player :=
  if (findPlayer l p.id).isSome then l.map (fun q => if q.id = p.id then p else q)
  else l ++ [p]

/-- `this.players.delete(id)` (keys are unique, so removing every entry
with the id coincides with removing the entry). -/
def removeId (id : String) : List Player → List Player
  | [] => []
  | q :: rest => if q.id = id then removeId id rest else q :: removeId id rest

/-- `Array.from(this.players.values()).filter(x => x.team === t).length`. -/
def countTeam (t : TeamKey) : List Player → Nat
  | [] => 0
  | p :: rest => (if p.team = t then 1 else 0) + countTeam t rest

/-- The key list of the player map. -/
def ids (l : List Player) : List String :=
  l.map Player.id

def Room.statePayload (r : Room) : RoomStatePayload :=
  { roomId := r.id,
    difficulty := r.difficulty,
    topic := r.topic,
    players := r.players.map (fun p => ⟨p.id, p.name, p.team, p.ready, p.attempts, p.errors⟩),
    started := r.started,
    winner := r.winner }

/-- `broadcastState(selfId?)`. -/
def Room.broadcastState (r : Room) (selfId : Option String) : Out :=
  .broadcast (.roomState r.statePayload selfId)

/-- Result of a room operation: the room afterwards, the sends it
performed, and — when an exception escaped every handler on the way out
(the unhandled promise rejection path) — that exception message. -/
structure StepResult where
  room : Room
  out : List Out
  escaped : Option String

/-- `Room.addPlayer(p)`: throw `"Room full"` at 4 players; otherwise
count the members of each team, put the joiner on team A when
`countA <= countB` and on team B otherwise, insert, and broadcast the
room state tagged with the joiner id. -/
def Room.addPlayer (r : Room) (p : Player) : Except String (Room × List Out) :=
  if r.players.length ≥ 4 then .error "Room full"
  else
    let countA := countTeam .A r.players
    let countB := countTeam .B r.players
    let team : TeamKey := if countA ≤ countB then .A else .B
    let p2 := { p with team := team }
    let r2 := { r with players := setPlayer r.players p2 }
    .ok (r2, [r2.broadcastState (some p.id)])

/-- `Room.removePlayer(id)`: delete; broadcast updated state unless the
room became empty (registry cleanup is the caller duty). -/
def Room.removePlayer (r : Room) (id : String) : Room × List Out :=
  let r2 := { r with players := removeId id r.players }
  if r2.players.length = 0 then (r2, []) else (r2, [r2.broadcastState none])

/-- Number of milliseconds of a round: `GAME_SECONDS = 20 * 60`. -/
def GAME_SECONDS : Nat := 20 * 60

/-- `Room.start()`: set `started`, clear `winner`, then request a
problem. The source never catches a rejection of
`repo.getRandomProblem`: on an empty pool the error escapes `start` as
an unhandled promise rejection with the two mutations already applied
and nothing broadcast. On success: record problem and deadline,
broadcast `game_start` and the room state, and begin the 1 Hz timer. -/
def Room.start (r : Room) (choice now : Nat) : StepResult :=
  let r1 := { r with started := true, winner := none }
  match Repo.new.getRandomProblem r.difficulty r.topic choice with
  | .error m => ⟨r1, [], some m⟩
  | .ok prob =>
      let endAt := now + GAME_SECONDS * 1000
      let r2 := { r1 with problem := some prob, endAt := some endAt, timer := true }
      ⟨r2, [.broadcast (.gameStart prob endAt (some prob.boilerplate)), r2.broadcastState none], none⟩

/-- `Room.tryStart()`: start iff not already started, exactly 4 players
present, and every player ready. -/
def Room.tryStart (r : Room) (choice now : Nat) : StepResult :=
  if r.started then ⟨r, [], none⟩
  else if r.players.length ≠ 4 then ⟨r, [], none⟩
  else if r.players.all (fun p => p.ready) then r.start choice now
  else ⟨r, [], none⟩

/-- The readiness update applied by `setReady` to the player map. -/
def updateReady (l : List Player) (id : String) (ready : Bool) : List Player :=
  l.map (fun q => if q.id = id then { q with ready := ready } else q)

/-- `Room.setReady(id, ready)`: silently no-op for an unknown id;
otherwise update readiness, broadcast state, then check the start
condition. -/
def Room.setReady (r : Room) (id : String) (ready : Bool) (choice now : Nat) : StepResult :=
  match findPlayer r.players id with
  | none => ⟨r, [], none⟩
  | some _ =>
      let r2 := { r with players := updateReady r.players id ready }
      let res := r2.tryStart choice now
      ⟨res.room, r2.broadcastState none :: res.out, res.escaped⟩

/-- `Room.finish(winner)`: no-op unless started; otherwise clear
`started`, record the winner, stop the timer, report the remaining time
(`Math.max(0, endAt - now)` — realized by truncated subtraction), and
broadcast `game_over` followed by the room state. -/
def Room.finish (r : Room) (winner : Option TeamKey) (now : Nat) : Room × List Out :=
  if r.started = false then (r, [])
  else
    let r2 := { r with started := false, winner := winner, timer := false }
    let timeTaken := match r.endAt with
      | some e => e - now
      | none => 0
    (r2, [.broadcast (.gameOver winner timeTaken), r2.broadcastState none])

/-- One firing of the 1 Hz interval while the timer handle is live:
conclude with no winner at or past the deadline, otherwise resync the
absolute deadline to every session. -/
def Room.tick (r : Room) (now : Nat) : Room × List Out :=
  if r.timer then
    match r.endAt with
    | none => (r, [])
    | some e =>
        if now ≥ e then
          let r2 := { r with timer := false }
          r2.finish none now
        else (r, [.broadcast (.timerSync e)])
  else (r, [])

/-- `Room.handleChat(fromId, text)`. -/
def Room.handleChat (r : Room) (fromId text : String) : List Out :=
  match findPlayer r.players fromId with
  | none => []
  | some p => [.broadcast (.chat p.name text (some p.team))]

/-- `Room.handleSubmit(fromId, code)`: no-op when the sender is unknown,
no problem is active, or the round is not started. Otherwise bump the
sender attempt counter and judge. Pass: broadcast an ok
`attempt_result` and finish with the sender team. Judged failure: bump
the sender error counter, send a private not-ok `attempt_result`
("Wrong answer"), rebroadcast state. Thrown harness error: the same
with the exception text (`err.message || "Runtime error"`). -/
def Room.handleSubmit (r : Room) (fromId : String) (code : Code) (rand : Nat → ℚ)
    (now : Nat) : Room × List Out :=
  match findPlayer r.players fromId, r.problem, r.started with
  | some p, some prob, true =>
      let p1 := { p with attempts := p.attempts + 1 }
      let r1 := { r with players := setPlayer r.players p1 }
      match evaluateSolution code prob rand with
      | .ok true =>
          let fin := r1.finish (some p1.team) now
          (fin.1, .broadcast (.attemptResult true none) :: fin.2)
      | .ok false =>
          let p2 := { p1 with errors := p1.errors + 1 }
          let r2 := { r1 with players := setPlayer r1.players p2 }
          (r2, [.direct p1.id (.attemptResult false (some "Wrong answer")), r2.broadcastState none])
      | .error m =>
          let p2 := { p1 with errors := p1.errors + 1 }
          let r2 := { r1 with players := setPlayer r1.players p2 }
          (r2, [.direct p1.id (.attemptResult false (some (if m = "" then "Runtime error" else m))),
                r2.broadcastState none])
  | _, _, _ => (r, [])

/-- `Room.rematch()`: reset readiness and the attempt/error counters of
every player, clear winner, problem and deadline, stop any timer, and
broadcast the room state. Teams are untouched. -/
def Room.rematch (r : Room) : Room × List Out :=
  let r2 := { r with
    players := r.players.map (fun p => { p with ready := false, attempts := 0, errors := 0 }),
    started := false, winner := none, problem := none, endAt := none, timer := false }
  (r2, [r2.broadcastState none])


/-- The room registry (`class RoomsMap`), an association list keyed by
room id — the JS `Map` holds room references, so every operation that
mutates a room writes the updated room back under its key. -/
abbrev RoomsMap := List (String × Room)

/-- `RoomsMap.getOrCreate(id, difficulty, topic)`. -/
def RoomsMap.getOrCreate (m : RoomsMap) (id : String) (difficulty : Difficulty)
    (topic : Topic) : Room × RoomsMap :=
  match lookupAssoc id m with
  | some r => (r, m)
  | none =>
      let room := Room.new id difficulty topic
      (room, setAssoc id room m)

/-- `RoomsMap.removeIfEmpty(id)`. -/
def RoomsMap.removeIfEmpty (m : RoomsMap) (id : String) : RoomsMap :=
  match lookupAssoc id m with
  | some r => if r.players.length = 0 then m.filter (fun kv => kv.1 != id) else m
  | none => m

/-- Per-connection state of the WebSocket handler (`currentRoom`,
`selfId`); the room reference is identified by its registry key. -/
structure Conn where
  currentRoom : Option String
  selfId : Option String
deriving DecidableEq, Repr

/-- `sanitizeName(name)`: fall back to "Player" on an empty name, keep
at most 24 characters, strip everything outside `[A-Za-z0-9_- ]`. -/
def sanitizeName (name : String) : String :=
  let base := if name = "" then "Player" else name
  let n := String.mk (base.toList.take 24)
  String.mk (n.toList.filter (fun c => c.isAlphanum || c = '_' || c = '-' || c = ' '))

/-- The `join_room` branch of the message handler: a session that
already holds a room silently breaks out (nothing is sent, nothing
changes); otherwise uppercase the room id, default the category to
Easy/Arrays, get or create the room, join it under a fresh session id
`pid` (assigned to `selfId` before the attempt), and either forward the
`"Room full"` error to this session only or record the room and send
this session its identity with a room-state snapshot. -/
def handleJoinRoom (conn : Conn) (rooms : RoomsMap) (roomId name : String)
    (difficulty : Option Difficulty) (topic : Option Topic) (pid : String) :
    Conn × RoomsMap × List Out :=
  match conn.currentRoom with
  | some _ => (conn, rooms, [])
  | none =>
      let rid := roomId.toUpper
      let d := difficulty.getD .Easy
      let t := topic.getD .Arrays
      let (room, rooms1) := rooms.getOrCreate rid d t
      let conn1 : Conn := ⟨conn.currentRoom, some pid⟩
      match room.addPlayer ⟨pid, sanitizeName name, .A, false, 0, 0⟩ with
      | .error m => (conn1, rooms1, [.direct pid (.error m)])
      | .ok (room2, outs) =>
          (⟨some rid, some pid⟩, setAssoc rid room2 rooms1,
            outs ++ [.direct pid (.roomState room2.statePayload (some pid))])

/-- One inbound event a room can observe, with the ambient
nondeterminism it consumes (wall clock, problem choice, entropy) made
explicit. -/
inductive Op where
  | addPlayer (p : Player)
  | removePlayer (id : String)
  | setReady (id : String) (ready : Bool) (choice now : Nat)
  | tick (now : Nat)
  | submit (fromId : String) (code : Code) (rand : Nat → ℚ) (now : Nat)
  | rematch

/-- Applying one event to a room. The `"Room full"` throw of
`addPlayer` is caught by the join handler (which reports it to the
joining socket), so it leaves the room unchanged without escaping;
the empty-pool throw inside `setReady → tryStart → start` is caught
nowhere and is recorded in `escaped`. -/
def applyOp (r : Room) : Op → StepResult
  | .addPlayer p =>
      match r.addPlayer p with
      | .error _ => ⟨r, [], none⟩
      | .ok (r2, outs) => ⟨r2, outs, none⟩
  | .removePlayer id =>
      let res := r.removePlayer id
      ⟨res.1, res.2, none⟩
  | .setReady id ready choice now => r.setReady id ready choice now
  | .tick now =>
      let res := r.tick now
      ⟨res.1, res.2, none⟩
  | .submit fromId code rand now =>
      let res := r.handleSubmit fromId code rand now
      ⟨res.1, res.2, none⟩
  | .rematch =>
      let res := r.rematch
      ⟨res.1, res.2, none⟩

/-- Reachability of a room state by a sequence of events. Joins carry a
freshly generated `crypto.randomUUID()`, so an added player id is never
already present — the side condition records exactly that. -/
inductive Reach (r0 : Room) : Room → Prop where
  | refl : Reach r0 r0
  | step (r : Room) (op : Op) (h : Reach r0 r)
      (fresh : ∀ p, op = Op.addPlayer p → findPlayer r.players p.id = none) :
      Reach r0 (applyOp r op).room


/-! ## Concrete inputs used by counterexamples and witnesses -/

/-- A lobby joiner as constructed by the join handler (team is
overwritten by `addPlayer`). -/
def mkPlayer (i : String) : Player := ⟨i, i, .A, false, 0, 0⟩

/-- A fresh room in the Easy/Trees category — a category whose seed
pool is empty. -/
def roomTrees0 : Room := Room.new "R" .Easy .Trees

/-- The Easy/Trees room after four joins and three readiness changes:
one readiness change away from the start condition. -/
def roomTrees3 : Room :=
  let a := (applyOp roomTrees0 (.addPlayer (mkPlayer "p1"))).room
  let b := (applyOp a (.addPlayer (mkPlayer "p2"))).room
  let c := (applyOp b (.addPlayer (mkPlayer "p3"))).room
  let d := (applyOp c (.addPlayer (mkPlayer "p4"))).room
  let e := (applyOp d (.setReady "p1" true 0 0)).room
  let f := (applyOp e (.setReady "p2" true 0 0)).room
  (applyOp f (.setReady "p3" true 0 0)).room

/-- The Easy/Trees room after the fourth player also reports ready:
`start` has run into the empty pool. -/
def roomTreesBad : Room := (applyOp roomTrees3 (.setReady "p4" true 0 0)).room

/-- A fresh room in the Easy/Arrays category (nonempty seed pool:
the two-sum problem). -/
def roomArr0 : Room := Room.new "S" .Easy .Arrays

/-- The Easy/Arrays room one readiness change away from starting. -/
def roomArr3 : Room :=
  let a := (applyOp roomArr0 (.addPlayer (mkPlayer "q1"))).room
  let b := (applyOp a (.addPlayer (mkPlayer "q2"))).room
  let c := (applyOp b (.addPlayer (mkPlayer "q3"))).room
  let d := (applyOp c (.addPlayer (mkPlayer "q4"))).room
  let e := (applyOp d (.setReady "q1" true 0 0)).room
  let f := (applyOp e (.setReady "q2" true 0 0)).room
  (applyOp f (.setReady "q3" true 0 0)).room

/-- The Easy/Arrays room right after its first three joins. -/
def roomArrTrio : Room :=
  let a := (applyOp roomArr0 (.addPlayer (mkPlayer "q1"))).room
  let b := (applyOp a (.addPlayer (mkPlayer "q2"))).room
  (applyOp b (.addPlayer (mkPlayer "q3"))).room

/-- The Easy/Arrays room with a running round on the two-sum problem
(deadline 1000 + 1200000 ms). -/
def roomArrActive : Room := (applyOp roomArr3 (.setReady "q4" true 0 1000)).room

/-- 1/2, as a raw rational literal. -/
def half : ℚ := ⟨1, 2, by decide, by decide⟩

/-- 3/4, as a raw rational literal. -/
def threeQ : ℚ := ⟨3, 4, by decide, by decide⟩

/-- A one-vector problem expecting `true` from a nullary function `f`. -/
def probR : Problem :=
  { id := "t", title := "", description := "", signature := "", examples := "",
    boilerplate := "", difficulty := .Easy, topic := .Arrays, functionName := "f",
    tests := [⟨[], .bool true⟩] }

/-- `function f() \x7b return Math.random() < 0.5; \x7d` — submitted code whose
outcome depends on the entropy consumed by `Math.random()`. -/
def codeR : Code :=
  { init := [],
    funcs := [("f", ⟨.lt .random (.lit (.num half))⟩)] }

/-- `let c = false; function f() \x7b if (c) return 2; c = true; return 1; \x7d` —
submitted code whose per-test results depend on the shared context. -/
def codeCtr : Code :=
  { init := [("c", .lit (.bool false))],
    funcs := [("f", ⟨.cond (.getG "c") (.lit (.num 2))
        (.seq (.setG "c" (.lit (.bool true))) (.lit (.num 1)))⟩)] }

/-- Two vectors expecting `f()` to yield 1 then 2. -/
def probCtr : Problem :=
  { id := "t", title := "", description := "", signature := "", examples := "",
    boilerplate := "", difficulty := .Easy, topic := .Arrays, functionName := "f",
    tests := [⟨[], .num 1⟩, ⟨[], .num 2⟩] }

/-- The second vector of `probCtr` alone. -/
def probCtrLast : Problem :=
  { probCtr with tests := [⟨[], .num 2⟩] }

/-- A submission against the two-sum problem that answers its three
vectors in sequence off two shared-context flags:
`[0,1]`, then `[1,2]`, then `[0,1]`. -/
def codeTwoSumSeq : Code :=
  { init := [("g1", .lit (.bool false)), ("g2", .lit (.bool false))],
    funcs := [("twoSum", ⟨.cond (.getG "g1")
        (.cond (.getG "g2")
          (.lit (.arr [.num 0, .num 1]))
          (.seq (.setG "g2" (.lit (.bool true))) (.lit (.arr [.num 1, .num 2]))))
        (.seq (.setG "g1" (.lit (.bool true))) (.lit (.arr [.num 0, .num 1])))⟩)] }

/-- A submission defining `twoSum` as the constant `[0,1]`: it passes
the first two-sum vector and fails the second. -/
def codeTwoSumConst : Code :=
  { init := [], funcs := [("twoSum", ⟨.lit (.arr [.num 0, .num 1])⟩)] }

/-- A session that has already joined room "AB". -/
def connJoined : Conn := ⟨some "AB", some "p1"⟩


/-- The run of `evaluateSolution`\x27s loop over a prefix of the test
vectors in which every vector passes, relating the context state before
and after. -/
inductive RunAllPass (rand : Nat → ℚ) (body : Expr) : List TestVec → EvalState → EvalState → Prop where
  | nil (st : EvalState) : RunAllPass rand body [] st st
  | cons (t : TestVec) (rest : List TestVec) (st st1 st2 : EvalState) (out : Value)
      (heval : evalExpr rand t.args body st = .ok (out, st1))
      (hpass : deepEqual out t.expected = true)
      (hrest : RunAllPass rand body rest st1 st2) :
      RunAllPass rand body (t :: rest) st st2

/-! ## Lemmas about the player map -/

theorem countTeam_append (t : TeamKey) (l1 l2 : List Player) :
    countTeam t (l1 ++ l2) = countTeam t l1 + countTeam t l2 := by
  induction l1 with
  | nil => simp [countTeam]
  | cons q rest ih =>
      rw [List.cons_append]
      show (if q.team = t then 1 else 0) + countTeam t (rest ++ l2) = _
      rw [ih]
      simp only [countTeam]
      omega

theorem countTeam_partition (l : List Player) :
    countTeam TeamKey.A l + countTeam TeamKey.B l = l.length := by
  induction l with
  | nil => rfl
  | cons q rest ih =>
      simp only [countTeam, List.length_cons]
      cases h : q.team <;> simp [h] <;> omega

theorem countTeam_removeId_le (t : TeamKey) (id : String) (l : List Player) :
    countTeam t (removeId id l) ≤ countTeam t l := by
  induction l with
  | nil => simp [removeId]
  | cons q rest ih =>
      simp only [removeId, countTeam]
      split
      · exact le_trans ih (by omega)
      · simp only [countTeam]; omega

theorem length_removeId_le (id : String) (l : List Player) :
    (removeId id l).length ≤ l.length := by
  induction l with
  | nil => simp [removeId]
  | cons q rest ih =>
      simp only [removeId]
      split
      · exact le_trans ih (by simp)
      · simpa using ih

theorem countTeam_map_preserve (t : TeamKey) (f : Player → Player)
    (hf : ∀ q, (f q).team = q.team) (l : List Player) :
    countTeam t (l.map f) = countTeam t l := by
  induction l with
  | nil => rfl
  | cons q rest ih => simp [countTeam, hf, ih]

theorem ids_map_preserve (f : Player → Player) (hf : ∀ q, (f q).id = q.id)
    (l : List Player) : ids (l.map f) = ids l := by
  simp only [ids, List.map_map]
  exact List.map_congr_left (fun q _ => hf q)

theorem findPlayer_eq_none {l : List Player} {id : String} :
    findPlayer l id = none ↔ ∀ q ∈ l, q.id ≠ id := by
  induction l with
  | nil => simp [findPlayer]
  | cons q rest ih => by_cases h : q.id = id <;> simp [findPlayer, h, ih]

theorem findPlayer_some {l : List Player} {id : String} {p : Player}
    (h : findPlayer l id = some p) : p ∈ l ∧ p.id = id := by
  induction l with
  | nil => simp [findPlayer] at h
  | cons q rest ih =>
      simp only [findPlayer] at h
      split at h
      · cases h; exact ⟨List.mem_cons_self .., by assumption⟩
      · rcases ih h with ⟨h1, h2⟩; exact ⟨List.mem_cons_of_mem _ h1, h2⟩

theorem setPlayer_fresh {l : List Player} {p : Player}
    (h : findPlayer l p.id = none) : setPlayer l p = l ++ [p] := by
  simp [setPlayer, h]

theorem length_setPlayer_found {l : List Player} {p : Player}
    (h : (findPlayer l p.id).isSome) : (setPlayer l p).length = l.length := by
  simp [setPlayer, h]

theorem map_replace_no_match {l : List Player} {p2 : Player}
    (h : ∀ q ∈ l, q.id ≠ p2.id) :
    l.map (fun q => if q.id = p2.id then p2 else q) = l := by
  induction l with
  | nil => rfl
  | cons q rest ih =>
      simp only [List.map_cons, if_neg (h q (List.mem_cons_self ..)),
        ih (fun x hx => h x (List.mem_cons_of_mem _ hx))]

theorem countTeam_map_replace {l : List Player} {p p2 : Player} {t : TeamKey}
    (hn : (ids l).Nodup) (hf : findPlayer l p2.id = some p) (ht : p2.team = p.team) :
    countTeam t (l.map fun q => if q.id = p2.id then p2 else q) = countTeam t l := by
  induction l with
  | nil => simp [findPlayer] at hf
  | cons q rest ih =>
      simp only [ids, List.map_cons, List.nodup_cons] at hn
      simp only [findPlayer] at hf
      by_cases hq : q.id = p2.id
      · rw [if_pos hq] at hf
        cases hf
        have hrest : ∀ x ∈ rest, x.id ≠ p2.id := by
          intro x hx
          rw [← hq]
          intro hc
          exact hn.1 (by simpa [ids, hc] using List.mem_map_of_mem Player.id hx)
        simp [countTeam, hq, map_replace_no_match hrest, ht]
      · rw [if_neg hq] at hf
        have := ih (by simpa [ids] using hn.2) hf
        simp [countTeam, hq, this]

theorem countTeam_setPlayer_found {l : List Player} {p p2 : Player} {t : TeamKey}
    (hn : (ids l).Nodup) (hf : findPlayer l p2.id = some p) (ht : p2.team = p.team) :
    countTeam t (setPlayer l p2) = countTeam t l := by
  rw [setPlayer, if_pos (by simp [hf])]
  exact countTeam_map_replace hn hf ht

theorem findPlayer_map_replace {l : List Player} {p2 : Player}
    (hs : (findPlayer l p2.id).isSome) :
    findPlayer (l.map fun q => if q.id = p2.id then p2 else q) p2.id = some p2 := by
  induction l with
  | nil => simp [findPlayer] at hs
  | cons q rest ih =>
      by_cases hq : q.id = p2.id
      · simp [findPlayer, hq]
      · simp only [findPlayer, if_neg hq] at hs
        simpa [findPlayer, hq] using ih hs

theorem findPlayer_setPlayer {l : List Player} {p2 : Player}
    (hs : (findPlayer l p2.id).isSome) :
    findPlayer (setPlayer l p2) p2.id = some p2 := by
  rw [setPlayer, if_pos hs]
  exact findPlayer_map_replace hs

theorem ids_setPlayer_found {l : List Player} {p p2 : Player}
    (hf : findPlayer l p2.id = some p) : ids (setPlayer l p2) = ids l := by
  rw [setPlayer, if_pos (by simp [hf])]
  simp only [ids, List.map_map]
  refine List.map_congr_left (fun q _ => ?_)
  by_cases hq : q.id = p2.id <;> simp [hq]

theorem ids_removeId_sublist (id : String) (l : List Player) :
    (ids (removeId id l)).Sublist (ids l) := by
  induction l with
  | nil => simp [removeId, ids]
  | cons q rest ih =>
      simp only [removeId]
      split
      · exact ih.trans (by simp [ids])
      · simpa [ids] using ih.cons₂ q.id

theorem nodup_ids_append_fresh {l : List Player} {p : Player}
    (hn : (ids l).Nodup) (h : findPlayer l p.id = none) :
    (ids (l ++ [p])).Nodup := by
  have hmem : p.id ∉ ids l := by
    simp only [ids, List.mem_map]
    rintro ⟨q, hq, hid⟩
    exact (findPlayer_eq_none.mp h q hq) hid
  simp only [ids, List.map_append, List.map_cons, List.map_nil]
  refine List.Nodup.append hn (List.nodup_singleton _) ?_
  intro a ha hb
  simp only [List.mem_singleton] at hb
  exact hmem (hb ▸ ha)


/-! ## Structural facts about the room operations -/

theorem start_players (r : Room) (c n : Nat) : (r.start c n).room.players = r.players := by
  unfold Room.start
  split <;> rfl

theorem tryStart_players (r : Room) (c n : Nat) :
    (r.tryStart c n).room.players = r.players := by
  unfold Room.tryStart
  split
  · rfl
  · split
    · rfl
    · split
      · exact start_players r c n
      · rfl

theorem finish_players (r : Room) (w : Option TeamKey) (n : Nat) :
    (r.finish w n).1.players = r.players := by
  unfold Room.finish
  split <;> rfl

/-- The room-level invariant that holds along every reachable trace:
unique player ids, at most 4 players, at most 2 players on each team. -/
structure StructInv (r : Room) : Prop where
  nodup : (ids r.players).Nodup
  size_le : r.players.length ≤ 4
  countA_le : countTeam TeamKey.A r.players ≤ 2
  countB_le : countTeam TeamKey.B r.players ≤ 2

theorem structInv_finish {rm : Room} {w : Option TeamKey} {n : Nat}
    (hn : (ids rm.players).Nodup) (hs : rm.players.length ≤ 4)
    (ha : countTeam TeamKey.A rm.players ≤ 2) (hb : countTeam TeamKey.B rm.players ≤ 2) :
    StructInv (rm.finish w n).1 := by
  refine ⟨?_, ?_, ?_, ?_⟩ <;> rw [finish_players] <;> assumption

theorem structInv_applyOp {r : Room} {op : Op} (h : StructInv r)
    (fresh : ∀ p, op = Op.addPlayer p → findPlayer r.players p.id = none) :
    StructInv (applyOp r op).room := by
  obtain ⟨hn, hs, ha, hb⟩ := h
  cases op with
  | addPlayer p =>
      have hfresh := fresh p rfl
      by_cases hlen : r.players.length ≥ 4
      · simp [applyOp, Room.addPlayer, hlen]
        exact ⟨hn, hs, ha, hb⟩
      · have hpart := countTeam_partition r.players
        have hset : setPlayer r.players
            { p with team := if countTeam TeamKey.A r.players ≤ countTeam TeamKey.B r.players
                then TeamKey.A else TeamKey.B } = r.players ++
            [{ p with team := if countTeam TeamKey.A r.players ≤ countTeam TeamKey.B r.players
                then TeamKey.A else TeamKey.B }] := setPlayer_fresh hfresh
        simp only [applyOp, Room.addPlayer, if_neg hlen, hset]
        refine ⟨nodup_ids_append_fresh hn hfresh, ?_, ?_, ?_⟩
        · simp only [List.length_append, List.length_cons, List.length_nil]
          omega
        · rw [countTeam_append]
          by_cases hAB : countTeam TeamKey.A r.players ≤ countTeam TeamKey.B r.players
          · have h1 : countTeam TeamKey.A
                [{ p with team := if countTeam TeamKey.A r.players ≤ countTeam TeamKey.B r.players
                    then TeamKey.A else TeamKey.B }] = 1 := by
              simp [countTeam, hAB]
            rw [h1]
            omega
          · have h1 : countTeam TeamKey.A
                [{ p with team := if countTeam TeamKey.A r.players ≤ countTeam TeamKey.B r.players
                    then TeamKey.A else TeamKey.B }] = 0 := by
              simp [countTeam, hAB]
            rw [h1]
            omega
        · rw [countTeam_append]
          by_cases hAB : countTeam TeamKey.A r.players ≤ countTeam TeamKey.B r.players
          · have h1 : countTeam TeamKey.B
                [{ p with team := if countTeam TeamKey.A r.players ≤ countTeam TeamKey.B r.players
                    then TeamKey.A else TeamKey.B }] = 0 := by
              simp [countTeam, hAB]
            rw [h1]
            omega
          · have h1 : countTeam TeamKey.B
                [{ p with team := if countTeam TeamKey.A r.players ≤ countTeam TeamKey.B r.players
                    then TeamKey.A else TeamKey.B }] = 1 := by
              simp [countTeam, hAB]
            rw [h1]
            omega
  | removePlayer id =>
      have hp : (applyOp r (Op.removePlayer id)).room.players = removeId id r.players := by
        show (r.removePlayer id).1.players = _
        unfold Room.removePlayer
        dsimp only
        split <;> rfl
      refine ⟨?_, ?_, ?_, ?_⟩ <;> rw [hp]
      · exact (ids_removeId_sublist id r.players).nodup hn
      · exact le_trans (length_removeId_le id r.players) hs
      · exact le_trans (countTeam_removeId_le _ id r.players) ha
      · exact le_trans (countTeam_removeId_le _ id r.players) hb
  | setReady id b choice now =>
      simp only [applyOp, Room.setReady]
      cases hfind : findPlayer r.players id with
      | none => exact ⟨hn, hs, ha, hb⟩
      | some p =>
          have hplayers : (Room.tryStart { r with players := updateReady r.players id b }
              choice now).room.players = updateReady r.players id b := tryStart_players _ _ _
          have hid : ∀ q : Player, ((if q.id = id then { q with ready := b } else q) : Player).id = q.id := by
            intro q; split <;> rfl
          have hteam : ∀ q : Player, ((if q.id = id then { q with ready := b } else q) : Player).team = q.team := by
            intro q; split <;> rfl
          refine ⟨?_, ?_, ?_, ?_⟩ <;> dsimp only <;> rw [hplayers, updateReady]
          · rw [ids_map_preserve _ hid]; exact hn
          · simpa using hs
          · rw [countTeam_map_preserve _ _ hteam]; exact ha
          · rw [countTeam_map_preserve _ _ hteam]; exact hb
  | tick now =>
      simp only [applyOp, Room.tick]
      split
      · split
        · exact ⟨hn, hs, ha, hb⟩
        · split
          · exact structInv_finish hn hs ha hb
          · exact ⟨hn, hs, ha, hb⟩
      · exact ⟨hn, hs, ha, hb⟩
  | submit fromId code rand now =>
      simp only [applyOp, Room.handleSubmit]
      cases hfind : findPlayer r.players fromId with
      | none => exact ⟨hn, hs, ha, hb⟩
      | some p =>
          cases hprob : r.problem with
          | none => cases hst : r.started <;> exact ⟨hn, hs, ha, hb⟩
          | some prob =>
              cases hst : r.started with
              | false => exact ⟨hn, hs, ha, hb⟩
              | true =>
                  dsimp only
                  have hpid : p.id = fromId := (findPlayer_some hfind).2
                  have hf1 : findPlayer r.players ({ p with attempts := p.attempts + 1 } : Player).id = some p := by
                    show findPlayer r.players p.id = some p
                    rw [hpid]; exact hfind
                  have inv1 : (ids (setPlayer r.players { p with attempts := p.attempts + 1 })).Nodup ∧
                      (setPlayer r.players { p with attempts := p.attempts + 1 }).length ≤ 4 ∧
                      countTeam TeamKey.A (setPlayer r.players { p with attempts := p.attempts + 1 }) ≤ 2 ∧
                      countTeam TeamKey.B (setPlayer r.players { p with attempts := p.attempts + 1 }) ≤ 2 := by
                    rw [ids_setPlayer_found hf1, length_setPlayer_found (by simp [hf1]),
                      countTeam_setPlayer_found hn hf1 rfl, countTeam_setPlayer_found hn hf1 rfl]
                    exact ⟨hn, hs, ha, hb⟩
                  obtain ⟨hn1, hs1, ha1, hb1⟩ := inv1
                  have hf2 : findPlayer (setPlayer r.players { p with attempts := p.attempts + 1 })
                      ({ p with attempts := p.attempts + 1, errors := p.errors + 1 } : Player).id =
                      some { p with attempts := p.attempts + 1 } := by
                    show findPlayer _ ({ p with attempts := p.attempts + 1 } : Player).id = _
                    exact findPlayer_setPlayer (by simp [hf1])
                  cases heval : evaluateSolution code prob rand with
                  | ok bb =>
                      cases bb with
                      | true =>
                          dsimp only
                          exact structInv_finish hn1 hs1 ha1 hb1
                      | false =>
                          dsimp only
                          have key1 : (ids (setPlayer (setPlayer r.players { p with attempts := p.attempts + 1 })
                              { p with attempts := p.attempts + 1, errors := p.errors + 1 })).Nodup := by
                            rw [ids_setPlayer_found hf2]; exact hn1
                          have key2 : (setPlayer (setPlayer r.players { p with attempts := p.attempts + 1 })
                              { p with attempts := p.attempts + 1, errors := p.errors + 1 }).length ≤ 4 := by
                            rw [length_setPlayer_found (by simp [hf2])]; exact hs1
                          have key3 : countTeam TeamKey.A (setPlayer (setPlayer r.players { p with attempts := p.attempts + 1 })
                              { p with attempts := p.attempts + 1, errors := p.errors + 1 }) ≤ 2 := by
                            rw [countTeam_setPlayer_found hn1 hf2 rfl]; exact ha1
                          have key4 : countTeam TeamKey.B (setPlayer (setPlayer r.players { p with attempts := p.attempts + 1 })
                              { p with attempts := p.attempts + 1, errors := p.errors + 1 }) ≤ 2 := by
                            rw [countTeam_setPlayer_found hn1 hf2 rfl]; exact hb1
                          exact ⟨key1, key2, key3, key4⟩
                  | error m =>
                      dsimp only
                      have key1 : (ids (setPlayer (setPlayer r.players { p with attempts := p.attempts + 1 })
                          { p with attempts := p.attempts + 1, errors := p.errors + 1 })).Nodup := by
                        rw [ids_setPlayer_found hf2]; exact hn1
                      have key2 : (setPlayer (setPlayer r.players { p with attempts := p.attempts + 1 })
                          { p with attempts := p.attempts + 1, errors := p.errors + 1 }).length ≤ 4 := by
                        rw [length_setPlayer_found (by simp [hf2])]; exact hs1
                      have key3 : countTeam TeamKey.A (setPlayer (setPlayer r.players { p with attempts := p.attempts + 1 })
                          { p with attempts := p.attempts + 1, errors := p.errors + 1 }) ≤ 2 := by
                        rw [countTeam_setPlayer_found hn1 hf2 rfl]; exact ha1
                      have key4 : countTeam TeamKey.B (setPlayer (setPlayer r.players { p with attempts := p.attempts + 1 })
                          { p with attempts := p.attempts + 1, errors := p.errors + 1 }) ≤ 2 := by
                        rw [countTeam_setPlayer_found hn1 hf2 rfl]; exact hb1
                      exact ⟨key1, key2, key3, key4⟩
  | rematch =>
      simp only [applyOp, Room.rematch]
      refine ⟨?_, ?_, ?_, ?_⟩ <;> dsimp only
      · rw [ids_map_preserve (fun p => { p with ready := false, attempts := 0, errors := 0 })
          (fun q => rfl)]
        exact hn
      · simpa using hs
      · rw [countTeam_map_preserve _ (fun p => { p with ready := false, attempts := 0, errors := 0 })
          (fun q => rfl)]
        exact ha
      · rw [countTeam_map_preserve _ (fun p => { p with ready := false, attempts := 0, errors := 0 })
          (fun q => rfl)]
        exact hb

theorem reach_structInv {r0 r : Room} (h0 : r0.players = [])
    (h : Reach r0 r) : StructInv r := by
  induction h with
  | refl => exact ⟨by simp [h0, ids], by simp [h0], by simp [h0, countTeam], by simp [h0, countTeam]⟩
  | step r op hr fresh ih => exact structInv_applyOp ih fresh


/-! ## The started-implies-problem invariant -/

theorem getRandomProblem_ok (d : Difficulty) (t : Topic) (choice : Nat)
    (h : poolFor d t ≠ []) :
    ∃ prob, Repo.new.getRandomProblem d t choice = .ok prob := by
  unfold Repo.getRandomProblem
  dsimp only
  have hlen : ¬ (Repo.new.problems.filter
      (fun p => p.difficulty == d && p.topic == t)).length = 0 := by
    show ¬ (poolFor d t).length = 0
    simpa [List.length_eq_zero] using h
  rw [dif_neg hlen]
  exact ⟨_, rfl⟩

theorem applyOp_fields (r : Room) (op : Op) :
    (applyOp r op).room.difficulty = r.difficulty ∧ (applyOp r op).room.topic = r.topic := by
  cases op with
  | addPlayer p =>
      by_cases hlen : r.players.length ≥ 4 <;>
        simp [applyOp, Room.addPlayer, hlen]
  | removePlayer id =>
      show (r.removePlayer id).1.difficulty = _ ∧ (r.removePlayer id).1.topic = _
      unfold Room.removePlayer
      dsimp only
      split <;> exact ⟨rfl, rfl⟩
  | setReady id b choice now =>
      show (r.setReady id b choice now).room.difficulty = _ ∧
        (r.setReady id b choice now).room.topic = _
      unfold Room.setReady
      cases hfind : findPlayer r.players id with
      | none => exact ⟨rfl, rfl⟩
      | some p =>
          dsimp only
          unfold Room.tryStart
          split
          · exact ⟨rfl, rfl⟩
          · split
            · exact ⟨rfl, rfl⟩
            · split
              · unfold Room.start
                dsimp only
                split <;> exact ⟨rfl, rfl⟩
              · exact ⟨rfl, rfl⟩
  | tick now =>
      show (r.tick now).1.difficulty = _ ∧ (r.tick now).1.topic = _
      unfold Room.tick
      split
      · split
        · exact ⟨rfl, rfl⟩
        · split
          · unfold Room.finish
            dsimp only
            split <;> exact ⟨rfl, rfl⟩
          · exact ⟨rfl, rfl⟩
      · exact ⟨rfl, rfl⟩
  | submit fromId code rand now =>
      show (r.handleSubmit fromId code rand now).1.difficulty = _ ∧
        (r.handleSubmit fromId code rand now).1.topic = _
      unfold Room.handleSubmit
      cases hfind : findPlayer r.players fromId with
      | none => exact ⟨rfl, rfl⟩
      | some p =>
          cases hprob : r.problem with
          | none => cases hst : r.started <;> exact ⟨rfl, rfl⟩
          | some prob =>
              cases hst : r.started with
              | false => exact ⟨rfl, rfl⟩
              | true =>
                  dsimp only
                  cases heval : evaluateSolution code prob rand with
                  | ok bb =>
                      cases bb with
                      | true =>
                          dsimp only
                          unfold Room.finish
                          dsimp only
                          split <;> exact ⟨rfl, rfl⟩
                      | false => exact ⟨rfl, rfl⟩
                  | error m => exact ⟨rfl, rfl⟩
  | rematch => exact ⟨rfl, rfl⟩

theorem applyOp_difficulty (r : Room) (op : Op) :
    (applyOp r op).room.difficulty = r.difficulty :=
  (applyOp_fields r op).1

theorem applyOp_topic (r : Room) (op : Op) :
    (applyOp r op).room.topic = r.topic :=
  (applyOp_fields r op).2

theorem reach_difficulty {r0 r : Room} (h : Reach r0 r) : r.difficulty = r0.difficulty := by
  induction h with
  | refl => rfl
  | step r op hr fresh ih => rw [applyOp_difficulty]; exact ih

theorem reach_topic {r0 r : Room} (h : Reach r0 r) : r.topic = r0.topic := by
  induction h with
  | refl => rfl
  | step r op hr fresh ih => rw [applyOp_topic]; exact ih

/-- `started ⇒ problem ≠ null ∧ deadline ≠ null`, in `Option.isSome` form. -/
def StartInv (r : Room) : Prop :=
  r.started = true → r.problem.isSome ∧ r.endAt.isSome

theorem startInv_applyOp {r : Room} {op : Op}
    (hpool : poolFor r.difficulty r.topic ≠ []) (h : StartInv r) :
    StartInv (applyOp r op).room := by
  cases op with
  | addPlayer p =>
      by_cases hlen : r.players.length ≥ 4
      · simp only [applyOp, Room.addPlayer, if_pos hlen]
        exact h
      · simp only [applyOp, Room.addPlayer, if_neg hlen]
        exact h
  | removePlayer id =>
      show StartInv (r.removePlayer id).1
      unfold Room.removePlayer
      dsimp only
      split <;> exact h
  | setReady id b choice now =>
      show StartInv (r.setReady id b choice now).room
      unfold Room.setReady
      cases hfind : findPlayer r.players id with
      | none => exact h
      | some p =>
          dsimp only
          unfold Room.tryStart
          split
          · exact h
          · split
            · exact h
            · split
              · unfold Room.start
                dsimp only
                rcases getRandomProblem_ok r.difficulty r.topic choice hpool with ⟨prob, hok⟩
                rw [hok]
                intro _
                exact ⟨rfl, rfl⟩
              · exact h
  | tick now =>
      show StartInv (r.tick now).1
      unfold Room.tick
      split
      · split
        · exact h
        · split
          · unfold Room.finish
            dsimp only
            split
            · exact h
            · intro hst
              exact absurd hst Bool.false_ne_true
          · exact h
      · exact h
  | submit fromId code rand now =>
      show StartInv (r.handleSubmit fromId code rand now).1
      unfold Room.handleSubmit
      cases hfind : findPlayer r.players fromId with
      | none => exact h
      | some p =>
          cases hprob : r.problem with
          | none => cases hst : r.started <;> exact h
          | some prob =>
              cases hst : r.started with
              | false => exact h
              | true =>
                  dsimp only
                  cases heval : evaluateSolution code prob rand with
                  | ok bb =>
                      cases bb with
                      | true =>
                          dsimp only
                          unfold Room.finish
                          dsimp only
                          split
                          · intro hst2
                            exact ⟨rfl, (h hst).2⟩
                          · intro hst2
                            exact absurd hst2 Bool.false_ne_true
                      | false =>
                          dsimp only
                          intro hst2
                          exact ⟨rfl, (h hst).2⟩
                  | error m =>
                      dsimp only
                      intro hst2
                      exact ⟨rfl, (h hst).2⟩
  | rematch =>
      show StartInv (r.rematch).1
      unfold Room.rematch
      dsimp only
      intro hst
      exact absurd hst Bool.false_ne_true

theorem reach_startInv {id0 : String} {d : Difficulty} {t : Topic} {r : Room}
    (hpool : poolFor d t ≠ []) (h : Reach (Room.new id0 d t) r) :
    StartInv r := by
  induction h with
  | refl => intro hst; exact absurd hst Bool.false_ne_true
  | step r op hr fresh ih =>
      refine startInv_applyOp ?_ ih
      rw [reach_difficulty hr, reach_topic hr]
      exact hpool


/-! ## Ambient-stream irrelevance of the harness on impure-free code -/

theorem evalExpr_rand_irrelevant (r1 r2 : Nat → ℚ) (args : List Value) :
    ∀ e : Expr, e.usesImpure = false → ∀ st, evalExpr r1 args e st = evalExpr r2 args e st := by
  intro e
  induction e with
  | lit v => intro _ st; rfl
  | arg i => intro _ st; rfl
  | getG x => intro _ st; rfl
  | setG x e ih =>
      intro he st
      have he2 : e.usesImpure = false := by simpa [Expr.usesImpure] using he
      simp only [evalExpr]
      rw [ih he2 st]
  | seq a b iha ihb =>
      intro he st
      simp only [Expr.usesImpure, Bool.or_eq_false_iff] at he
      simp only [evalExpr]
      rw [iha he.1 st]
      cases evalExpr r2 args a st with
      | error m => rfl
      | ok vs =>
          obtain ⟨v, st2⟩ := vs
          dsimp only
          exact ihb he.2 st2
  | add a b iha ihb =>
      intro he st
      simp only [Expr.usesImpure, Bool.or_eq_false_iff] at he
      simp only [evalExpr]
      rw [iha he.1 st]
      cases evalExpr r2 args a st with
      | error m => rfl
      | ok vs =>
          obtain ⟨v, st2⟩ := vs
          dsimp only
          rw [ihb he.2 st2]
  | lt a b iha ihb =>
      intro he st
      simp only [Expr.usesImpure, Bool.or_eq_false_iff] at he
      simp only [evalExpr]
      rw [iha he.1 st]
      cases evalExpr r2 args a st with
      | error m => rfl
      | ok vs =>
          obtain ⟨v, st2⟩ := vs
          dsimp only
          rw [ihb he.2 st2]
  | cond c t e ihc iht ihe =>
      intro he st
      simp only [Expr.usesImpure, Bool.or_eq_false_iff] at he
      simp only [evalExpr]
      rw [ihc he.1.1 st]
      cases evalExpr r2 args c st with
      | error m => rfl
      | ok vs =>
          obtain ⟨v, st2⟩ := vs
          cases v with
          | bool bb => cases bb with
              | true => exact iht he.1.2 st2
              | false => exact ihe he.2 st2
          | null => rfl
          | num q => rfl
          | str s2 => rfl
          | arr es => rfl
          | obj fs => rfl
  | random => intro he; simp [Expr.usesImpure] at he
  | dateNow => intro he; simp [Expr.usesImpure] at he
  | throwE m => intro _ st; rfl

theorem runInit_rand_irrelevant (r1 r2 : Nat → ℚ) :
    ∀ l : List (String × Expr), (∀ xe ∈ l, (xe.2 : Expr).usesImpure = false) →
      ∀ st, runInit r1 l st = runInit r2 l st := by
  intro l
  induction l with
  | nil => intro _ st; rfl
  | cons xe rest ih =>
      intro hl st
      obtain ⟨x, e⟩ := xe
      simp only [runInit]
      rw [evalExpr_rand_irrelevant r1 r2 [] e (hl (x, e) (List.mem_cons_self ..)) st]
      cases evalExpr r2 [] e st with
      | error m => rfl
      | ok vs =>
          obtain ⟨v, st2⟩ := vs
          dsimp only
          exact ih (fun q hq => hl q (List.mem_cons_of_mem _ hq)) _

theorem runTests_rand_irrelevant (r1 r2 : Nat → ℚ) (body : Expr)
    (hb : body.usesImpure = false) :
    ∀ (tests : List TestVec) (st : EvalState),
      runTests r1 body tests st = runTests r2 body tests st := by
  intro tests
  induction tests with
  | nil => intro st; rfl
  | cons t rest ih =>
      intro st
      simp only [runTests]
      rw [evalExpr_rand_irrelevant r1 r2 t.args body hb st]
      cases evalExpr r2 t.args body st with
      | error m => rfl
      | ok vs =>
          obtain ⟨v, st2⟩ := vs
          dsimp only
          split
          · exact ih st2
          · rfl

theorem lookupAssoc_mem {α : Type} {k : String} {v : α} :
    ∀ {l : List (String × α)}, lookupAssoc k l = some v → (k, v) ∈ l := by
  intro l
  induction l with
  | nil => intro h; simp [lookupAssoc] at h
  | cons kv rest ih =>
      intro h
      obtain ⟨k2, v2⟩ := kv
      simp only [lookupAssoc] at h
      split at h
      · cases h
        subst_vars
        exact List.mem_cons_self ..
      · exact List.mem_cons_of_mem _ (ih h)


/-! ## Reachability of the concrete rooms -/

theorem reach_roomArr3 : Reach roomArr0 roomArr3 := by
  have h1 := Reach.step roomArr0 (Op.addPlayer (mkPlayer "q1")) Reach.refl
    (fun p hp => by cases hp; rfl)
  have h2 := Reach.step _ (Op.addPlayer (mkPlayer "q2")) h1 (fun p hp => by cases hp; rfl)
  have h3 := Reach.step _ (Op.addPlayer (mkPlayer "q3")) h2 (fun p hp => by cases hp; rfl)
  have h4 := Reach.step _ (Op.addPlayer (mkPlayer "q4")) h3 (fun p hp => by cases hp; rfl)
  have h5 := Reach.step _ (Op.setReady "q1" true 0 0) h4 (fun p hp => by cases hp)
  have h6 := Reach.step _ (Op.setReady "q2" true 0 0) h5 (fun p hp => by cases hp)
  exact Reach.step _ (Op.setReady "q3" true 0 0) h6 (fun p hp => by cases hp)

theorem reach_roomArrTrio : Reach roomArr0 roomArrTrio := by
  have h1 := Reach.step roomArr0 (Op.addPlayer (mkPlayer "q1")) Reach.refl
    (fun p hp => by cases hp; rfl)
  have h2 := Reach.step _ (Op.addPlayer (mkPlayer "q2")) h1 (fun p hp => by cases hp; rfl)
  exact Reach.step _ (Op.addPlayer (mkPlayer "q3")) h2 (fun p hp => by cases hp; rfl)

theorem reach_roomArrActive : Reach roomArr0 roomArrActive :=
  Reach.step _ (Op.setReady "q4" true 0 1000) reach_roomArr3 (fun p hp => by cases hp)

theorem reach_roomTreesBad : Reach roomTrees0 roomTreesBad := by
  have h1 := Reach.step roomTrees0 (Op.addPlayer (mkPlayer "p1")) Reach.refl
    (fun p hp => by cases hp; rfl)
  have h2 := Reach.step _ (Op.addPlayer (mkPlayer "p2")) h1 (fun p hp => by cases hp; rfl)
  have h3 := Reach.step _ (Op.addPlayer (mkPlayer "p3")) h2 (fun p hp => by cases hp; rfl)
  have h4 := Reach.step _ (Op.addPlayer (mkPlayer "p4")) h3 (fun p hp => by cases hp; rfl)
  have h5 := Reach.step _ (Op.setReady "p1" true 0 0) h4 (fun p hp => by cases hp)
  have h6 := Reach.step _ (Op.setReady "p2" true 0 0) h5 (fun p hp => by cases hp)
  have h7 := Reach.step _ (Op.setReady "p3" true 0 0) h6 (fun p hp => by cases hp)
  exact Reach.step _ (Op.setReady "p4" true 0 0) h7 (fun p hp => by cases hp)

/-- Unfolding of `finish` on a started room. -/
theorem finish_eq_of_started {r : Room} (h : r.started = true) (w : Option TeamKey) (now : Nat) :
    r.finish w now = ({ r with started := false, winner := w, timer := false },
      [Out.broadcast (SMsg.gameOver w (match r.endAt with | some e => e - now | none => 0)),
       ({ r with started := false, winner := w, timer := false } : Room).broadcastState none]) := by
  unfold Room.finish
  rw [if_neg (by simp [h])]


/-! ## Claims -/

/-- C1. At the failing input — an Easy/Trees room (empty seed pool for
that category) whose four players all report ready — the readiness
change that meets the start condition makes the Problem Source error
escape uncaught (`escaped` is the unhandled rejection), while no
error-kind message is sent to any session, contrary to the claim that
the failure surfaces to the room as an error message and no exception
escapes the coordinator; the room is left with `started = true` and no
problem. -/
theorem c1_empty_pool_start_error_escapes :
    roomTrees3.players.length = 4 ∧
    (updateReady roomTrees3.players "p4" true).all (fun p => p.ready) = true ∧
    (roomTrees3.setReady "p4" true 0 0).escaped = some "No problems in this category." ∧
    (roomTrees3.setReady "p4" true 0 0).out.all (fun o => !o.isErrorKind) = true ∧
    (roomTrees3.setReady "p4" true 0 0).room.started = true ∧
    (roomTrees3.setReady "p4" true 0 0).room.problem = none :=
  ⟨rfl, rfl, rfl, rfl, rfl, rfl⟩

/-- C2 (counterexample). The stated invariant fails on the code: from a
fresh Easy/Trees room, four joins followed by four readiness changes
reach a state with `started = true` but `problem = none` and
`endAt = none` (the empty-pool `start` set `started` before the fetch
threw). -/
theorem c2_invariant_counterexample :
    Reach roomTrees0 roomTreesBad ∧ roomTreesBad.started = true ∧
    roomTreesBad.problem = none ∧ roomTreesBad.endAt = none :=
  ⟨reach_roomTreesBad, rfl, rfl, rfl⟩

/-- C2 (amended). Along every event sequence the player map has at most
4 entries — on every reachable room, whatever its category; and
whenever the room\x27s category has a nonempty problem pool, `started`
being true implies the problem and the deadline are non-null at every
observable point (empty-pool rooms reachably violate that second part,
per the counterexample). -/
theorem c2_amended_invariants (id0 : String) (d : Difficulty) (t : Topic)
    (r : Room) (h : Reach (Room.new id0 d t) r) :
    r.players.length ≤ 4 ∧
    (poolFor d t ≠ [] → r.started = true → r.problem ≠ none ∧ r.endAt ≠ none) := by
  have hstruct := reach_structInv (show (Room.new id0 d t).players = [] from rfl) h
  refine ⟨hstruct.size_le, fun hpool hst => ?_⟩
  have hstart := reach_startInv hpool h
  exact ⟨Option.isSome_iff_ne_none.mp (hstart hst).1,
    Option.isSome_iff_ne_none.mp (hstart hst).2⟩

/-- C2 (witness): the amended invariant instantiated on the running
Easy/Arrays room, with the nonempty-pool hypothesis discharged. -/
theorem c2_amended_invariants_witness :
    roomArrActive.players.length ≤ 4 ∧
    (roomArrActive.started = true → roomArrActive.problem ≠ none ∧ roomArrActive.endAt ≠ none) := by
  have h := c2_amended_invariants "S" Difficulty.Easy Topic.Arrays roomArrActive
    reach_roomArrActive
  refine ⟨h.1, fun hst => h.2 ?_ hst⟩
  intro hc
  have h1 : (poolFor Difficulty.Easy Topic.Arrays).length = 1 := rfl
  rw [hc] at h1
  simp at h1

/-- C3 (counterexample). Evaluation is not deterministic across calls:
the vm context hands the submitted code `Math` — including
`Math.random` — so the program `function f() \x7b return Math.random() < 0.5 \x7d`
judged against a vector expecting `true` passes on one call (entropy
stream yielding 0) and is judged a wrong answer on another (entropy
stream yielding 3/4), with identical code and problem. -/
theorem c3_nondeterministic_via_math_random :
    evaluateSolution codeR probR (fun _ => 0) = .ok true ∧
    evaluateSolution codeR probR (fun _ => threeQ) = .ok false :=
  ⟨rfl, rfl⟩

/-- C3 (amended). Each `evaluate` call does run in a fresh context, but
that context is a full JS realm whose impure primitives
(`Math.random()` from the passed-in host `Math`, `Date.now()` from the
realm\x27s own built-ins) are available to submissions, so judging is
NOT deterministic in general. Determinism holds for the pure part of
the fragment: a submission of the modelled sublanguage that invokes no
impure primitive yields identical outcomes (same pass/fail and same
reason) on any two calls, whatever ambient values the impure
primitives would have returned. (Submissions outside the fragment —
e.g. reaching `eval`/`Function` through the realm or the host objects —
are outside this statement\x27s scope.) -/
theorem c3_deterministic_pure_fragment (code : Code) (problem : Problem)
    (r1 r2 : Nat → ℚ) (h : code.usesImpure = false) :
    evaluateSolution code problem r1 = evaluateSolution code problem r2 := by
  have hor := h
  unfold Code.usesImpure at hor
  rw [Bool.or_eq_false_iff] at hor
  have hinit : ∀ xe ∈ code.init, (xe.2 : Expr).usesImpure = false := by
    have := hor.1
    rw [List.any_eq_false] at this
    intro xe hxe
    simpa using this xe hxe
  have hfuncs : ∀ xf ∈ code.funcs, (xf.2 : FuncDef).body.usesImpure = false := by
    have := hor.2
    rw [List.any_eq_false] at this
    intro xf hxf
    simpa using this xf hxf
  unfold evaluateSolution
  rw [runInit_rand_irrelevant r1 r2 code.init hinit ⟨[], 0⟩]
  cases runInit r2 code.init ⟨[], 0⟩ with
  | error m => rfl
  | ok st =>
      dsimp only
      cases hlook : lookupAssoc problem.functionName code.funcs with
      | none => rfl
      | some fd =>
          dsimp only
          exact runTests_rand_irrelevant r1 r2 fd.body
            (hfuncs (problem.functionName, fd) (lookupAssoc_mem hlook)) problem.tests st

/-- C3 (witness): the determinism theorem instantiated on an
impure-free submission and two distinct ambient streams. -/
theorem c3_deterministic_pure_fragment_witness :
    evaluateSolution codeCtr probCtr (fun _ => 0) = evaluateSolution codeCtr probCtr (fun _ => half) :=
  c3_deterministic_pure_fragment codeCtr probCtr (fun _ => 0) (fun _ => half) rfl

/-- C9 (counterexample). A join message from a session already in a
room is NOT reported to the session: the handler silently breaks out,
sending no message at all (in particular no error-kind message), with
connection, registry and rooms unchanged — so the claim that the error
is reported to the offending session fails. -/
theorem c9_join_while_joined_silent :
    handleJoinRoom connJoined [] "CD" "Bob" none none "p9" = (connJoined, [], []) ∧
    ((handleJoinRoom connJoined [] "CD" "Bob" none none "p9").2.2.filter
      Out.isErrorKind).length = 0 :=
  ⟨rfl, rfl⟩

/-- C9 (amended). A join from a session that already joined a room is
silently ignored: the operation is rejected and neither the session
state, nor the registry, nor any room changes, and no message is sent
to anyone (the source never reports this case). -/
theorem c9_join_while_joined_spec (conn : Conn) (rooms : RoomsMap)
    (roomId name : String) (difficulty : Option Difficulty) (topic : Option Topic)
    (pid rid0 : String) (h : conn.currentRoom = some rid0) :
    handleJoinRoom conn rooms roomId name difficulty topic pid = (conn, rooms, []) := by
  unfold handleJoinRoom
  rw [h]

/-- C9 (witness): the silent-ignore behaviour at a concrete joined
session. -/
theorem c9_join_while_joined_spec_witness :
    handleJoinRoom connJoined [] "CD" "Bob" none none "p9" = (connJoined, [], []) :=
  c9_join_while_joined_spec connJoined [] "CD" "Bob" none none "p9" "AB" rfl

/-- C10. All test vectors of one `evaluate` call run in the one context
created for that call: when a vector passes, the loop continues on the
rest from the mutated context state; and for the two-vector problem
`probCtr` and the flag-mutating submission `codeCtr`, the whole call
passes while the second vector alone in a fresh context is judged a
wrong answer — freshness holds across calls, not across vectors. -/
theorem c10_shared_context_across_tests :
    (∀ (rand : Nat → ℚ) (body : Expr) (t : TestVec) (rest : List TestVec)
        (st st2 : EvalState) (out : Value),
      evalExpr rand t.args body st = .ok (out, st2) →
      deepEqual out t.expected = true →
      runTests rand body (t :: rest) st = runTests rand body rest st2) ∧
    evaluateSolution codeCtr probCtr (fun _ => 0) = .ok true ∧
    evaluateSolution codeCtr probCtrLast (fun _ => 0) = .ok false := by
  refine ⟨?_, rfl, rfl⟩
  intro rand body t rest st st2 out heval hpass
  simp only [runTests, heval, hpass]
  rfl

/-- C10 (witness): the threading equation applied on the first vector
of `probCtr` in the loaded context of `codeCtr`, together with the two
closed outcomes. -/
theorem c10_shared_context_across_tests_witness :
    runTests (fun _ => 0) (Expr.cond (.getG "c") (.lit (.num 2))
        (.seq (.setG "c" (.lit (.bool true))) (.lit (.num 1))))
      [⟨[], .num 1⟩, ⟨[], .num 2⟩] ⟨[("c", .bool false)], 0⟩ =
    runTests (fun _ => 0) (Expr.cond (.getG "c") (.lit (.num 2))
        (.seq (.setG "c" (.lit (.bool true))) (.lit (.num 1))))
      [⟨[], .num 2⟩] ⟨[("c", .bool true)], 0⟩ :=
  c10_shared_context_across_tests.1 (fun _ => 0) _ ⟨[], .num 1⟩ [⟨[], .num 2⟩]
    ⟨[("c", .bool false)], 0⟩ ⟨[("c", .bool true)], 0⟩ (.num 1) rfl rfl


theorem runTests_first_mismatch (rand : Nat → ℚ) (body : Expr) :
    ∀ (pre : List TestVec) (st st1 : EvalState), RunAllPass rand body pre st st1 →
    ∀ (t : TestVec) (out : Value) (st2 : EvalState) (post : List TestVec),
      evalExpr rand t.args body st1 = .ok (out, st2) →
      deepEqual out t.expected = false →
      runTests rand body (pre ++ t :: post) st = .ok false ∧
      runTests rand body (pre ++ t :: post) st = runTests rand body (pre ++ [t]) st := by
  intro pre st st1 hpre
  induction hpre with
  | nil st0 =>
      intro t out st2 post heval hne
      constructor
      · simp [runTests, heval, hne]
      · simp [runTests, heval, hne]
  | cons t0 rest st0 stm stend out0 heval0 hpass0 hrest ih =>
      intro t out st2 post heval hne
      constructor
      · have := (ih t out st2 post heval hne).1
        simpa [runTests, heval0, hpass0] using this
      · have := (ih t out st2 post heval hne).2
        simpa [runTests, heval0, hpass0] using this

/-- C7. A test result is judged equal to the expected value iff the two
canonical serialized forms are character-identical
(`JSON.stringify(a) === JSON.stringify(b)`); and after a passing prefix,
the first mismatching vector makes the run yield the wrong-answer
result with the vectors after it never attempted (the outcome is that
of the run truncated at the mismatch). -/
theorem c7_canonical_equality_first_mismatch :
    (∀ a b : Value, deepEqual a b = true ↔ Value.stringify a = Value.stringify b) ∧
    (∀ (rand : Nat → ℚ) (body : Expr) (pre : List TestVec) (st st1 : EvalState)
        (t : TestVec) (out : Value) (st2 : EvalState) (post : List TestVec),
      RunAllPass rand body pre st st1 →
      evalExpr rand t.args body st1 = .ok (out, st2) →
      deepEqual out t.expected = false →
      runTests rand body (pre ++ t :: post) st = .ok false ∧
      runTests rand body (pre ++ t :: post) st = runTests rand body (pre ++ [t]) st) := by
  constructor
  · intro a b
    unfold deepEqual
    exact beq_iff_eq
  · intro rand body pre st st1 t out st2 post hpre heval hne
    exact runTests_first_mismatch rand body pre st st1 hpre t out st2 post heval hne

/-- C7 (witness): a passing first vector followed by a mismatch — the
run stops with the wrong-answer result regardless of the vectors after
the mismatch. -/
theorem c7_canonical_equality_first_mismatch_witness :
    runTests (fun _ => 0) (Expr.lit (.num 1)) [⟨[], .num 1⟩, ⟨[], .num 2⟩, ⟨[], .num 3⟩] ⟨[], 0⟩ =
      .ok false ∧
    runTests (fun _ => 0) (Expr.lit (.num 1)) [⟨[], .num 1⟩, ⟨[], .num 2⟩, ⟨[], .num 3⟩] ⟨[], 0⟩ =
      runTests (fun _ => 0) (Expr.lit (.num 1)) [⟨[], .num 1⟩, ⟨[], .num 2⟩] ⟨[], 0⟩ :=
  c7_canonical_equality_first_mismatch.2 (fun _ => 0) (Expr.lit (.num 1))
    [⟨[], .num 1⟩] ⟨[], 0⟩ ⟨[], 0⟩ ⟨[], .num 2⟩ (.num 1) ⟨[], 0⟩ [⟨[], .num 3⟩]
    (RunAllPass.cons _ _ _ _ _ _ rfl rfl (RunAllPass.nil _)) rfl rfl


/-- C5. After any readiness change, the room is started iff it was
already started or the updated room has exactly 4 players, all ready,
with the sender a known player; and whenever the change actually emits
a `game_start` (the round starts), the carried and recorded deadline is
the current time plus `GAME_SECONDS * 1000` milliseconds (20 minutes),
the round was not already started, and exactly 4 players were present,
all ready. -/
theorem c5_start_condition (r : Room) (id : String) (rd : Bool) (choice now : Nat) :
    ((r.setReady id rd choice now).room.started = true ↔
      (r.started = true ∨
        ((findPlayer r.players id).isSome = true ∧
          (updateReady r.players id rd).length = 4 ∧
          (updateReady r.players id rd).all (fun p => p.ready) = true))) ∧
    (∀ (prob : Problem) (endAt : Nat) (bp : Option String),
      Out.broadcast (SMsg.gameStart prob endAt bp) ∈ (r.setReady id rd choice now).out →
      endAt = now + GAME_SECONDS * 1000 ∧
      (r.setReady id rd choice now).room.endAt = some (now + GAME_SECONDS * 1000) ∧
      r.started = false ∧
      (updateReady r.players id rd).length = 4 ∧
      (updateReady r.players id rd).all (fun p => p.ready) = true) := by
  unfold Room.setReady
  cases hfind : findPlayer r.players id with
  | none =>
      constructor
      · simp [hfind]
      · intro prob endAt bp hmem
        simp at hmem
  | some p =>
      dsimp only
      unfold Room.tryStart
      split
      · rename_i hst
        dsimp only at hst
        constructor
        · dsimp only
          simp [hst]
        · intro prob endAt bp hmem
          simp [Room.broadcastState] at hmem
      · rename_i hst
        dsimp only at hst
        have hstf : r.started = false := by
          cases hb : r.started
          · rfl
          · exact absurd hb hst
        split
        · rename_i hlen
          dsimp only at hlen
          constructor
          · dsimp only
            simp [hstf, hlen, hfind]
          · intro prob endAt bp hmem
            simp [Room.broadcastState] at hmem
        · rename_i hlen
          dsimp only at hlen
          have hlen4 : (updateReady r.players id rd).length = 4 := by
            by_contra hc
            exact hlen hc
          split
          · rename_i hall
            dsimp only at hall
            unfold Room.start
            dsimp only
            cases hget : Repo.new.getRandomProblem r.difficulty r.topic choice with
            | error m =>
                constructor
                · simp [hstf, hlen4, hall, hfind]
                · intro prob endAt bp hmem
                  simp [Room.broadcastState] at hmem
            | ok prob2 =>
                constructor
                · simp [hstf, hlen4, hall, hfind]
                · intro prob endAt bp hmem
                  simp [Room.broadcastState] at hmem
                  obtain ⟨hp, he, hb⟩ := hmem
                  refine ⟨?_, rfl, hstf, hlen4, hall⟩
                  omega
          · rename_i hall
            dsimp only at hall
            have hallf : (updateReady r.players id rd).all (fun p => p.ready) = false := by
              cases hb : (updateReady r.players id rd).all (fun p => p.ready)
              · rfl
              · exact absurd hb hall
            constructor
            · dsimp only
              simp [hstf, hallf]
            · intro prob endAt bp hmem
              simp [Room.broadcastState] at hmem

/-- C5 (witness): in the Easy/Arrays room with three ready players, the
fourth readiness change does start the round. -/
theorem c5_start_condition_witness :
    (roomArr3.setReady "q4" true 0 1000).room.started = true ∧
    (roomArr3.setReady "q4" true 0 1000).room.endAt = some (1000 + GAME_SECONDS * 1000) :=
  ⟨(c5_start_condition roomArr3 "q4" true 0 1000).1.mpr (Or.inr ⟨rfl, rfl, rfl⟩),
    by
      have h := (c5_start_condition roomArr3 "q4" true 0 1000).2
      exact (h ((roomArr3.setReady "q4" true 0 1000).room.problem.getD probR)
        (1000 + GAME_SECONDS * 1000)
        (some (((roomArr3.setReady "q4" true 0 1000).room.problem.getD probR).boilerplate))
        (by exact List.mem_cons_of_mem _ (List.mem_cons_self ..))).2.1⟩


/-- C6. `handleSubmit` is a no-op when the sender is unknown, no problem
is active, or the round is not started; otherwise the sender attempt
counter is incremented, and: a passing evaluation broadcasts the ok
submission-result to the room and concludes the round with the sender
team as winner (`game_over` then room state); a judged failure or a
thrown harness error additionally increments the sender error counter,
sends the not-ok result with diagnostic text to the sender only,
rebroadcasts room state, and leaves the round started. -/
theorem c6_handleSubmit_spec (r : Room) (fromId : String) (code : Code)
    (rand : Nat → ℚ) (now : Nat) :
    ((findPlayer r.players fromId = none ∨ r.problem = none ∨ r.started = false) →
      r.handleSubmit fromId code rand now = (r, [])) ∧
    (∀ (p : Player) (prob : Problem), findPlayer r.players fromId = some p →
      r.problem = some prob → r.started = true →
      ((evaluateSolution code prob rand = .ok true →
        (r.handleSubmit fromId code rand now).1.started = false ∧
        (r.handleSubmit fromId code rand now).1.winner = some p.team ∧
        findPlayer (r.handleSubmit fromId code rand now).1.players fromId =
          some { p with attempts := p.attempts + 1 } ∧
        ∃ tt, (r.handleSubmit fromId code rand now).2 =
          [Out.broadcast (SMsg.attemptResult true none),
           Out.broadcast (SMsg.gameOver (some p.team) tt),
           Out.broadcast (SMsg.roomState (r.handleSubmit fromId code rand now).1.statePayload none)]) ∧
      (evaluateSolution code prob rand = .ok false →
        (r.handleSubmit fromId code rand now).1.started = true ∧
        (r.handleSubmit fromId code rand now).1.winner = r.winner ∧
        (r.handleSubmit fromId code rand now).1.problem = r.problem ∧
        findPlayer (r.handleSubmit fromId code rand now).1.players fromId =
          some { p with attempts := p.attempts + 1, errors := p.errors + 1 } ∧
        (r.handleSubmit fromId code rand now).2 =
          [Out.direct fromId (SMsg.attemptResult false (some "Wrong answer")),
           Out.broadcast (SMsg.roomState (r.handleSubmit fromId code rand now).1.statePayload none)]) ∧
      (∀ m, evaluateSolution code prob rand = .error m →
        (r.handleSubmit fromId code rand now).1.started = true ∧
        (r.handleSubmit fromId code rand now).1.winner = r.winner ∧
        (r.handleSubmit fromId code rand now).1.problem = r.problem ∧
        findPlayer (r.handleSubmit fromId code rand now).1.players fromId =
          some { p with attempts := p.attempts + 1, errors := p.errors + 1 } ∧
        (r.handleSubmit fromId code rand now).2 =
          [Out.direct fromId (SMsg.attemptResult false
              (some (if m = "" then "Runtime error" else m))),
           Out.broadcast (SMsg.roomState (r.handleSubmit fromId code rand now).1.statePayload none)]))) := by
  constructor
  · intro hdisj
    unfold Room.handleSubmit
    rcases hdisj with h | h | h
    · simp [h]
    · cases hfind : findPlayer r.players fromId <;> simp [h]
    · cases hfind : findPlayer r.players fromId with
      | none => simp
      | some p => cases hprob : r.problem <;> simp [h]
  · intro p prob hfind hprob hst
    have hpid : p.id = fromId := (findPlayer_some hfind).2
    have hs1 : (findPlayer r.players ({ p with attempts := p.attempts + 1 } : Player).id).isSome := by
      show (findPlayer r.players p.id).isSome
      rw [hpid, hfind]
      rfl
    have hfp1 : findPlayer (setPlayer r.players { p with attempts := p.attempts + 1 })
        ({ p with attempts := p.attempts + 1 } : Player).id =
        some { p with attempts := p.attempts + 1 } := findPlayer_setPlayer hs1
    have hs2 : (findPlayer (setPlayer r.players { p with attempts := p.attempts + 1 })
        ({ p with attempts := p.attempts + 1, errors := p.errors + 1 } : Player).id).isSome := by
      show (findPlayer (setPlayer r.players { p with attempts := p.attempts + 1 })
        ({ p with attempts := p.attempts + 1 } : Player).id).isSome
      rw [hfp1]
      rfl
    have hfp2 : findPlayer (setPlayer (setPlayer r.players { p with attempts := p.attempts + 1 })
        { p with attempts := p.attempts + 1, errors := p.errors + 1 })
        ({ p with attempts := p.attempts + 1, errors := p.errors + 1 } : Player).id =
        some { p with attempts := p.attempts + 1, errors := p.errors + 1 } :=
      findPlayer_setPlayer hs2
    refine ⟨?_, ?_, ?_⟩
    · intro heval
      unfold Room.handleSubmit
      simp only [hfind, hprob, hst, heval]
      unfold Room.finish
      rw [if_neg (show ¬ (true : Bool) = false by simp)]
      refine ⟨rfl, rfl, ?_, ?_⟩
      · rw [← hpid]
        exact hfp1
      · exact ⟨_, rfl⟩
    · intro heval
      unfold Room.handleSubmit
      simp only [hfind, hprob, hst, heval]
      refine ⟨by simp, by simp, by simp, ?_, ?_⟩
      · rw [← hpid]
        exact hfp2
      · rw [← hpid]
        rfl
    · intro m heval
      unfold Room.handleSubmit
      simp only [hfind, hprob, hst, heval]
      refine ⟨by simp, by simp, by simp, ?_, ?_⟩
      · rw [← hpid]
        exact hfp2
      · rw [← hpid]
        rfl

/-- C6 (witness): in the running Easy/Arrays room, the constant-`[0,1]`
submission from player q2 is judged a wrong answer: the sender counters
become 1 attempt and 1 error, the private not-ok result goes to q2
only, and the round stays started. -/
theorem c6_handleSubmit_spec_witness :
    (roomArrActive.handleSubmit "q2" codeTwoSumConst (fun _ => 0) 2000).1.started = true ∧
    findPlayer (roomArrActive.handleSubmit "q2" codeTwoSumConst (fun _ => 0) 2000).1.players "q2" =
      some { mkPlayer "q2" with team := TeamKey.B, ready := true, attempts := 1, errors := 1 } := by
  have h := (c6_handleSubmit_spec roomArrActive "q2" codeTwoSumConst (fun _ => 0) 2000).2
    ({ mkPlayer "q2" with team := TeamKey.B, ready := true })
    (roomArrActive.problem.getD probR) rfl rfl rfl
  exact ⟨(h.2.1 rfl).1, (h.2.1 rfl).2.2.2.1⟩


/-- C8. `rematch`, from any state: every player keeps id and team while
readiness and the attempt/error counters reset; winner, problem and
deadline are cleared, the timer stopped, the started flag lowered; the
only message sent is one room-state broadcast — in particular no
`game_over` is sent even when called mid-round. -/
theorem c8_rematch_spec (r : Room) :
    (r.rematch).1.players =
      r.players.map (fun p => { p with ready := false, attempts := 0, errors := 0 }) ∧
    (r.rematch).1.started = false ∧
    (r.rematch).1.winner = none ∧
    (r.rematch).1.problem = none ∧
    (r.rematch).1.endAt = none ∧
    (r.rematch).1.timer = false ∧
    (r.rematch).2 = [Out.broadcast (SMsg.roomState (r.rematch).1.statePayload none)] ∧
    (∀ p ∈ r.players,
      ({ p with ready := false, attempts := 0, errors := 0 } : Player) ∈ (r.rematch).1.players) ∧
    (∀ q ∈ (r.rematch).1.players, q.ready = false ∧ q.attempts = 0 ∧ q.errors = 0 ∧
      ∃ p, p ∈ r.players ∧ q.id = p.id ∧ q.team = p.team) ∧
    (∀ (w : Option TeamKey) (tt : Nat), Out.broadcast (SMsg.gameOver w tt) ∉ (r.rematch).2) := by
  refine ⟨rfl, rfl, rfl, rfl, rfl, rfl, rfl, ?_, ?_, ?_⟩
  · intro p hp
    exact List.mem_map_of_mem _ hp
  · intro q hq
    have hq2 : q ∈ r.players.map
        (fun p => { p with ready := false, attempts := 0, errors := 0 }) := hq
    rcases List.mem_map.mp hq2 with ⟨p, hp, rfl⟩
    exact ⟨rfl, rfl, rfl, p, hp, rfl, rfl⟩
  · intro w tt hmem
    have he : (r.rematch).2 =
        [Out.broadcast (SMsg.roomState (r.rematch).1.statePayload none)] := rfl
    rw [he] at hmem
    simp at hmem

/-- C8 (witness): rematch of the running Easy/Arrays room lowers the
started flag and keeps player q1 with its team and zeroed counters. -/
theorem c8_rematch_spec_witness :
    (roomArrActive.rematch).1.started = false ∧
    (⟨"q1", "q1", TeamKey.A, false, 0, 0⟩ : Player) ∈ (roomArrActive.rematch).1.players := by
  obtain ⟨h1, h2, h3, h4, h5, h6, h7, h8, h9, h10⟩ := c8_rematch_spec roomArrActive
  exact ⟨h2, h8 ⟨"q1", "q1", TeamKey.A, true, 0, 0⟩ (by decide)⟩

/-- C4. On every reachable room: a join of a fresh id is appended with
team A when `countA ≤ countB` (so ties go to A, and the smaller team
otherwise) and after the addition the team sizes differ by at most 1;
and whenever exactly 4 players are present the split is exactly 2-2. -/
theorem c4_team_assignment_balance (id0 : String) (d : Difficulty) (t : Topic)
    (r : Room) (h : Reach (Room.new id0 d t) r) :
    (∀ (p : Player) (r2 : Room) (outs : List Out), findPlayer r.players p.id = none →
      r.addPlayer p = .ok (r2, outs) →
      r2.players = r.players ++
        [{ p with team := if countTeam TeamKey.A r.players ≤ countTeam TeamKey.B r.players
            then TeamKey.A else TeamKey.B }] ∧
      countTeam TeamKey.A r2.players ≤ countTeam TeamKey.B r2.players + 1 ∧
      countTeam TeamKey.B r2.players ≤ countTeam TeamKey.A r2.players + 1) ∧
    (r.players.length = 4 →
      countTeam TeamKey.A r.players = 2 ∧ countTeam TeamKey.B r.players = 2) := by
  obtain ⟨hn, hs, ha, hb⟩ := reach_structInv
    (show (Room.new id0 d t).players = [] from rfl) h
  have hpart := countTeam_partition r.players
  constructor
  · intro p r2 outs hfresh hok
    unfold Room.addPlayer at hok
    by_cases hlen : r.players.length ≥ 4
    · rw [if_pos hlen] at hok
      cases hok
    · rw [if_neg hlen] at hok
      dsimp only at hok
      cases hok
      have hset : setPlayer r.players
          { p with team := if countTeam TeamKey.A r.players ≤ countTeam TeamKey.B r.players
              then TeamKey.A else TeamKey.B } = r.players ++
          [{ p with team := if countTeam TeamKey.A r.players ≤ countTeam TeamKey.B r.players
              then TeamKey.A else TeamKey.B }] := setPlayer_fresh hfresh
      refine ⟨hset, ?_, ?_⟩ <;> dsimp only <;> rw [hset, countTeam_append, countTeam_append]
      · by_cases hAB : countTeam TeamKey.A r.players ≤ countTeam TeamKey.B r.players
        · have e1 : countTeam TeamKey.A
              [{ p with team := if countTeam TeamKey.A r.players ≤ countTeam TeamKey.B r.players
                  then TeamKey.A else TeamKey.B }] = 1 := by simp [countTeam, hAB]
          have e2 : countTeam TeamKey.B
              [{ p with team := if countTeam TeamKey.A r.players ≤ countTeam TeamKey.B r.players
                  then TeamKey.A else TeamKey.B }] = 0 := by simp [countTeam, hAB]
          rw [e1, e2]
          omega
        · have e1 : countTeam TeamKey.A
              [{ p with team := if countTeam TeamKey.A r.players ≤ countTeam TeamKey.B r.players
                  then TeamKey.A else TeamKey.B }] = 0 := by simp [countTeam, hAB]
          have e2 : countTeam TeamKey.B
              [{ p with team := if countTeam TeamKey.A r.players ≤ countTeam TeamKey.B r.players
                  then TeamKey.A else TeamKey.B }] = 1 := by simp [countTeam, hAB]
          rw [e1, e2]
          omega
      · by_cases hAB : countTeam TeamKey.A r.players ≤ countTeam TeamKey.B r.players
        · have e1 : countTeam TeamKey.A
              [{ p with team := if countTeam TeamKey.A r.players ≤ countTeam TeamKey.B r.players
                  then TeamKey.A else TeamKey.B }] = 1 := by simp [countTeam, hAB]
          have e2 : countTeam TeamKey.B
              [{ p with team := if countTeam TeamKey.A r.players ≤ countTeam TeamKey.B r.players
                  then TeamKey.A else TeamKey.B }] = 0 := by simp [countTeam, hAB]
          rw [e1, e2]
          omega
        · have e1 : countTeam TeamKey.A
              [{ p with team := if countTeam TeamKey.A r.players ≤ countTeam TeamKey.B r.players
                  then TeamKey.A else TeamKey.B }] = 0 := by simp [countTeam, hAB]
          have e2 : countTeam TeamKey.B
              [{ p with team := if countTeam TeamKey.A r.players ≤ countTeam TeamKey.B r.players
                  then TeamKey.A else TeamKey.B }] = 1 := by simp [countTeam, hAB]
          rw [e1, e2]
          omega
  · intro hlen4
    omega

/-- C4 (witness): the running room splits 2-2, and adding a fresh
player to the three-player room leaves the team sizes within 1. -/
theorem c4_team_assignment_balance_witness :
    (countTeam TeamKey.A roomArrActive.players = 2 ∧
      countTeam TeamKey.B roomArrActive.players = 2) ∧
    countTeam TeamKey.A (applyOp roomArrTrio (Op.addPlayer (mkPlayer "q9"))).room.players ≤
      countTeam TeamKey.B (applyOp roomArrTrio (Op.addPlayer (mkPlayer "q9"))).room.players + 1 := by
  constructor
  · exact (c4_team_assignment_balance "S" Difficulty.Easy Topic.Arrays roomArrActive
      reach_roomArrActive).2 rfl
  · have h := (c4_team_assignment_balance "S" Difficulty.Easy Topic.Arrays roomArrTrio
      reach_roomArrTrio).1 (mkPlayer "q9")
      (applyOp roomArrTrio (Op.addPlayer (mkPlayer "q9"))).room
      [(applyOp roomArrTrio (Op.addPlayer (mkPlayer "q9"))).room.broadcastState (some "q9")]
      rfl (by rfl)
    exact h.2.1

end AlgoClash
